import Mathlib

/-!
Verification of the NF-e XML extraction core (`nfe_parser.py`) of the
xml-converter repository, as a shallow embedding in Lean 4.

Modelling conventions:
* An XML element (`lxml.etree._Element`) is modelled abstractly as `Nfe.XElem`:
  its text, its attribute map, the result of `element.find(xpath)` for every
  xpath string (an oracle function faithful to the one way the source uses
  `find`), and the result of `root.findall('.//nfe:det')` (the `dets` field).
  Every concrete XML document induces such a value.
* A raw byte buffer that is fed to `etree.fromstring` is modelled as
  `Nfe.XmlContent`: either `malformed` (parsing raises) or `wellFormed root`.
* Python `float` values are represented by the decimal literal they were
  parsed from (`Nfe.Value.num s`); the development never has to compare two
  floats obtained from different literals, so this representation is faithful
  for every statement proved here.  Whether `float(text)` succeeds is modelled
  by `Nfe.pyFloatParses`, an executable rendering of Python's float grammar.
* Python's ordered `dict` with string keys is modelled as an insertion-ordered
  association list (`Nfe.Record`, `Nfe.Selection`) with first-key lookup and
  in-place overwrite (`Nfe.dictSet`).
* `pandas.DataFrame` is modelled as a column-name list plus row lists
  (`Nfe.DataFrame`); a cell that pandas would hold as NaN (missing key at
  construction) is `Nfe.Value.nan`.
-/

namespace Nfe

/-! ## Python string primitives (modelled over character lists) -/

/-- Model of Python `str.endswith`. -/
def pyEndsWith (s suffix : String) : Bool :=
  List.isSuffixOf suffix.data s.data

/-- Model of Python `str.lower`. -/
def pyLower (s : String) : String :=
  String.mk (s.data.map Char.toLower)

/-- Model of Python `str.strip` (drop leading and trailing whitespace). -/
def pyStrip (s : String) : String :=
  String.mk (((s.data.dropWhile Char.isWhitespace).reverse.dropWhile Char.isWhitespace).reverse)

/-- Model of the single `str.replace` call of the source,
`chave.replace('NFe', '')`: removes every (non-overlapping, left-to-right)
occurrence of `"NFe"`. -/
def removeNFe : List Char → List Char
  | 'N' :: 'F' :: 'e' :: rest => removeNFe rest
  | c :: rest => c :: removeNFe rest
  | [] => []

/-- String version of `removeNFe`. -/
def pyReplaceNFe (s : String) : String :=
  String.mk (removeNFe s.data)

/-- Greedy continuation of a digit group in Python's float grammar: consume
`(['_'] digit)*`, where each underscore must be followed by a digit
(PEP 515 grouping; the caller has already consumed a digit). -/
def chompDigits : List Char → List Char
  | '_' :: c :: rest => if c.isDigit then chompDigits rest else '_' :: c :: rest
  | c :: rest => if c.isDigit then chompDigits rest else c :: rest
  | [] => []

/-- A `digitpart` of Python's float grammar — `digit (['_'] digit)*` — as a
consumer: `some rest` when a digitpart prefix was consumed, `none` when the
input does not start with a digit. -/
def digitpart : List Char → Option (List Char)
  | c :: rest => if c.isDigit then some (chompDigits rest) else Option.none
  | [] => Option.none

/-- Exponent-and-sign tail of Python's float grammar: optional sign then a
digitpart consuming the whole remainder. -/
def signedDigits (cs : List Char) : Bool :=
  let cs := match cs with
    | '+' :: r => r
    | '-' :: r => r
    | r => r
  match digitpart cs with
  | some rest => rest.isEmpty
  | Option.none => false

/-- Optional exponent part of Python's float grammar. -/
def expPart (cs : List Char) : Bool :=
  match cs with
  | [] => true
  | 'e' :: rest => signedDigits rest
  | 'E' :: rest => signedDigits rest
  | _ => false

/-- Mantissa (with optional exponent) of Python's float grammar:
`digitpart ['.' [digitpart]] [exp]` or `'.' digitpart [exp]`, with PEP 515
underscore grouping inside each digitpart. -/
def mantissaExp (cs : List Char) : Bool :=
  match digitpart cs with
  | some rest =>
    match rest with
    | '.' :: rest2 =>
      (match digitpart rest2 with
       | some rest3 => expPart rest3
       | Option.none => expPart rest2)
    | _ => expPart rest
  | Option.none =>
    match cs with
    | '.' :: rest2 =>
      (match digitpart rest2 with
       | some rest3 => expPart rest3
       | Option.none => false)
    | _ => false

/-- Model of whether Python `float(s)` succeeds: surrounding whitespace,
optional sign, then a decimal mantissa with optional exponent (with PEP 515
underscore grouping between digits), or one of the `inf` / `infinity` /
`nan` forms (case-insensitive).  Digits are modelled as the ASCII digits. -/
def pyFloatParses (s : String) : Bool :=
  let cs := (pyStrip s).data
  let cs := match cs with
    | '+' :: r => r
    | '-' :: r => r
    | r => r
  let low := cs.map Char.toLower
  low = "inf".data || low = "infinity".data || low = "nan".data || mantissaExp cs

/-! ## XML document model -/

/-- Abstract model of an `lxml` element as used by the source: its text, its
attributes, the oracle for `element.find(xpath, namespaces=NAMESPACE)`, and
the list produced by `findall('.//nfe:det', ...)` on it. -/
inductive XElem : Type where
  | mk : (text : Option String) → (attrs : List (String × String)) →
         (find : String → Option XElem) → (dets : List XElem) → XElem

/-- Text content of an element (`element.text`). -/
def XElem.text : XElem → Option String
  | XElem.mk t _ _ _ => t

/-- Attribute lookup (`element.get(name)`). -/
def XElem.getAttr : XElem → String → Option String
  | XElem.mk _ attrs _ _, a => attrs.lookup a

/-- Result of `element.find(xpath, namespaces=NAMESPACE)`. -/
def XElem.find : XElem → String → Option XElem
  | XElem.mk _ _ f _, p => f p

/-- Result of `root.findall('.//nfe:det', namespaces=NAMESPACE)`. -/
def XElem.dets : XElem → List XElem
  | XElem.mk _ _ _ d => d

/-- A raw byte buffer as seen by `etree.fromstring`: either it fails to parse
(malformed XML) or it parses to a root element. -/
inductive XmlContent : Type where
  | malformed : XmlContent
  | wellFormed : XElem → XmlContent

/-- Model of `etree.fromstring` wrapped in the source's `try/except`:
`none` means the exception branch was taken. -/
def fromstring : XmlContent → Option XElem
  | XmlContent.malformed => Option.none
  | XmlContent.wellFormed root => some root

/-! ## Values and records -/

/-- A value held in a record / DataFrame cell: Python `None`, a string, a
float (represented by the literal it was parsed from), or a pandas NaN cell
(missing key at DataFrame construction). -/
inductive Value : Type where
  | none : Value
  | str : String → Value
  | num : String → Value
  | nan : Value
deriving DecidableEq

/-- An insertion-ordered string-keyed dictionary of values
(Python `Dict[str, Any]`). -/
abbrev Record := List (String × Value)

/-- The caller's field selection (Python `Dict[str, bool]`, insertion-ordered). -/
abbrev Selection := List (String × Bool)

/-- Dictionary assignment `d[k] = v`: overwrite in place if the key exists,
otherwise append (Python dict semantics). -/
def dictSet : Record → String → Value → Record
  | [], k, v => [(k, v)]
  | (k', v') :: rest, k, v =>
    if k' = k then (k', v) :: rest else (k', v') :: dictSet rest k v

/-- `selected_fields.get(k, False)`-style test used for
`k in selected_fields and selected_fields[k]`. -/
def lookupTrue (sel : Selection) (k : String) : Bool :=
  (sel.lookup k).getD false

/-- Python truthiness of an `Optional[str]`. -/
def optTruthy : Option String → Bool
  | some s => s ≠ ""
  | Option.none => false

/-- An `Optional[str]` stored into a record. -/
def optToValue : Option String → Value
  | some s => Value.str s
  | Option.none => Value.none

/-! ## Field catalog (`XPATH_MAP`, `ITEM_FIELDS`) -/

/-- The source's `XPATH_MAP` dictionary, verbatim. -/
def XPATH_MAP : List (String × String) := [
  ("Chave de Acesso", ".//nfe:infNFe"),
  ("Número da NF", ".//nfe:ide/nfe:nNF"),
  ("Série", ".//nfe:ide/nfe:serie"),
  ("Data e Hora de Emissão", ".//nfe:ide/nfe:dhEmi"),
  ("Natureza da Operação", ".//nfe:ide/nfe:natOp"),
  ("Modelo", ".//nfe:ide/nfe:mod"),
  ("Versão", ".//nfe:infNFe"),
  ("Status do Protocolo", ".//nfe:protNFe/nfe:infProt/nfe:xMotivo"),
  ("CNPJ do Emitente", ".//nfe:emit/nfe:CNPJ"),
  ("CPF do Emitente", ".//nfe:emit/nfe:CPF"),
  ("Razão Social Emitente", ".//nfe:emit/nfe:xNome"),
  ("Nome Fantasia Emitente", ".//nfe:emit/nfe:xFant"),
  ("CNPJ do Destinatário", ".//nfe:dest/nfe:CNPJ"),
  ("CPF do Destinatário", ".//nfe:dest/nfe:CPF"),
  ("Razão Social Destinatário", ".//nfe:dest/nfe:xNome"),
  ("Inscrição Estadual Destinatário", ".//nfe:dest/nfe:IE"),
  ("Número do Item", "nItem"),
  ("Cód. Produto", ".//nfe:prod/nfe:cProd"),
  ("Código EAN", ".//nfe:prod/nfe:cEAN"),
  ("Descrição do Produto", ".//nfe:prod/nfe:xProd"),
  ("NCM", ".//nfe:prod/nfe:NCM"),
  ("CEST", ".//nfe:prod/nfe:CEST"),
  ("CFOP do Item", ".//nfe:prod/nfe:CFOP"),
  ("Unidade Comercial", ".//nfe:prod/nfe:uCom"),
  ("Quantidade Comercial", ".//nfe:prod/nfe:qCom"),
  ("Valor Unitário", ".//nfe:prod/nfe:vUnCom"),
  ("Valor Total Item", ".//nfe:prod/nfe:vProd"),
  ("Origem da Mercadoria", ".//nfe:imposto/nfe:ICMS"),
  ("CST ICMS", ".//nfe:imposto/nfe:ICMS"),
  ("Modalidade BC ICMS", ".//nfe:imposto/nfe:ICMS"),
  ("Base Cálculo ICMS", ".//nfe:imposto/nfe:ICMS"),
  ("Alíquota ICMS", ".//nfe:imposto/nfe:ICMS"),
  ("Valor ICMS", ".//nfe:imposto/nfe:ICMS"),
  ("Valor IPI", ".//nfe:imposto/nfe:IPI"),
  ("Valor PIS", ".//nfe:imposto/nfe:PIS"),
  ("Valor COFINS", ".//nfe:imposto/nfe:COFINS"),
  ("BC ICMS UF Destino", ".//nfe:imposto/nfe:ICMSUFDest/nfe:vBCUFDest"),
  ("BC FCP UF Destino", ".//nfe:imposto/nfe:ICMSUFDest/nfe:vBCFCPUFDest"),
  ("Percentual FCP UF Destino", ".//nfe:imposto/nfe:ICMSUFDest/nfe:pFCPUFDest"),
  ("Alíquota Interna UF Destino", ".//nfe:imposto/nfe:ICMSUFDest/nfe:pICMSUFDest"),
  ("Alíquota Interestadual", ".//nfe:imposto/nfe:ICMSUFDest/nfe:pICMSInter"),
  ("Percentual Partilha ICMS", ".//nfe:imposto/nfe:ICMSUFDest/nfe:pICMSInterPart"),
  ("Valor FCP UF Destino", ".//nfe:imposto/nfe:ICMSUFDest/nfe:vFCPUFDest"),
  ("Valor ICMS UF Destino", ".//nfe:imposto/nfe:ICMSUFDest/nfe:vICMSUFDest"),
  ("Valor ICMS UF Remetente", ".//nfe:imposto/nfe:ICMSUFDest/nfe:vICMSUFRemet"),
  ("Valor Total da NF", ".//nfe:total/nfe:ICMSTot/nfe:vNF"),
  ("Valor Total dos Produtos", ".//nfe:total/nfe:ICMSTot/nfe:vProd"),
  ("Valor Total do ICMS", ".//nfe:total/nfe:ICMSTot/nfe:vICMS"),
  ("Valor Total do IPI", ".//nfe:total/nfe:ICMSTot/nfe:vIPI")]

/-- The source's `ITEM_FIELDS` list, verbatim. -/
def ITEM_FIELDS : List String := [
  "Número do Item",
  "Cód. Produto",
  "Código EAN",
  "Descrição do Produto",
  "NCM",
  "CEST",
  "CFOP do Item",
  "Unidade Comercial",
  "Quantidade Comercial",
  "Valor Unitário",
  "Valor Total Item",
  "Origem da Mercadoria",
  "CST ICMS",
  "Modalidade BC ICMS",
  "Base Cálculo ICMS",
  "Alíquota ICMS",
  "Valor ICMS",
  "Valor IPI",
  "Valor PIS",
  "Valor COFINS",
  "BC ICMS UF Destino",
  "BC FCP UF Destino",
  "Percentual FCP UF Destino",
  "Alíquota Interna UF Destino",
  "Alíquota Interestadual",
  "Percentual Partilha ICMS",
  "Valor FCP UF Destino",
  "Valor ICMS UF Destino",
  "Valor ICMS UF Remetente"]

/-! ## Safe lookup helpers (`safe_find_text`, `safe_find_attribute`) -/

/-- `safe_find_text(element, xpath, namespaces, default)`: the element's first
match for the xpath, its text if truthy, stripped; otherwise the default. -/
def safe_find_text (element : XElem) (xpath : String) (default : Option String) :
    Option String :=
  match element.find xpath with
  | some found =>
    match found.text with
    | some t => if t = "" then default else some (pyStrip t)
    | Option.none => default
  | Option.none => default

/-- `safe_find_attribute(element, xpath, attr_name, namespaces, default)`:
the attribute of the first match, stripped, if truthy; otherwise the default. -/
def safe_find_attribute (element : XElem) (xpath attr_name : String)
    (default : Option String) : Option String :=
  match element.find xpath with
  | some found =>
    match found.getAttr attr_name with
    | some a => if a = "" then default else some (pyStrip a)
    | Option.none => default
  | Option.none => default

/-! ## Per-item tax extraction helpers -/

/-- `extract_icms_field(item, field_tag, namespaces)`: looks up
`.//nfe:imposto/nfe:ICMS//nfe:<field_tag>`, tries `float`, and on
`ValueError` returns the text itself; `None` when nothing matches. -/
def extract_icms_field (item : XElem) (field_tag : String) : Value :=
  match item.find (".//nfe:imposto/nfe:ICMS//nfe:" ++ field_tag) with
  | some found =>
    match found.text with
    | some t =>
      if t = "" then Value.none
      else
        let text_value := pyStrip t
        if pyFloatParses text_value then Value.num text_value else Value.str text_value
    | Option.none => Value.none
  | Option.none => Value.none

/-- `extract_tax_value(item, tax_group, value_tag, namespaces)`: looks up
`.//nfe:imposto/nfe:<tax_group>//nfe:<value_tag>` and returns `float` of its
text, or `0.0` on absence or `ValueError`. -/
def extract_tax_value (item : XElem) (tax_group value_tag : String) : Value :=
  match item.find (".//nfe:imposto/nfe:" ++ tax_group ++ "//nfe:" ++ value_tag) with
  | some found =>
    match found.text with
    | some t =>
      if t = "" then Value.num "0.0"
      else
        let text_value := pyStrip t
        if pyFloatParses text_value then Value.num text_value else Value.num "0.0"
    | Option.none => Value.num "0.0"
  | Option.none => Value.num "0.0"

/-- `extract_icmsufdest_field(item, field_tag, namespaces)`: looks up
`.//nfe:imposto/nfe:ICMSUFDest/nfe:<field_tag>` and returns `float` of its
text, or `None` on absence or `ValueError`. -/
def extract_icmsufdest_field (item : XElem) (field_tag : String) : Option String :=
  match item.find (".//nfe:imposto/nfe:ICMSUFDest/nfe:" ++ field_tag) with
  | some found =>
    match found.text with
    | some t =>
      if t = "" then Option.none
      else
        let text_value := pyStrip t
        if pyFloatParses text_value then some text_value else Option.none
    | Option.none => Option.none
  | Option.none => Option.none

/-- `detect_nfe_version(root)`: the `versao` attribute of `.//nfe:infNFe`,
defaulting to `"desconhecida"`. -/
def detect_nfe_version (root : XElem) : String :=
  (safe_find_attribute root ".//nfe:infNFe" "versao" (some "desconhecida")).getD
    "desconhecida"

/-! ## Archive unwrapper (`extract_xml_from_files`) -/

/-- One member of a zip archive: its name in the archive directory and the
outcome of `zip_ref.read(...)` on it (`Option.none` models the read raising,
which the source skips with `continue`). -/
structure ZipMember : Type where
  filename : String
  zread : Option XmlContent

/-- The bytes of one uploaded blob, as the two interpretations the source
applies to them: either they open as a zip archive, or they do not (in which
case using them as XML bytes gives some `XmlContent`; actual zip bytes used
as XML would be `XmlContent.malformed`). -/
inductive Blob : Type where
  | zip : List ZipMember → Blob
  | notZip : XmlContent → Blob

/-- An uploaded file object: its `.name` and the outcome of `.read()`
(`Option.none` models the read raising, which the source skips). -/
structure UploadedFile : Type where
  name : String
  fread : Option Blob

/-- Bytes used as XML content: zip bytes are malformed XML. -/
def blob_as_xml : Blob → XmlContent
  | Blob.zip _ => XmlContent.malformed
  | Blob.notZip x => x

/-- The inner member loop of `extract_xml_from_files`: keep members whose
lowercased name ends in `.xml` and whose read succeeds; a member whose read
fails is skipped and the rest of the archive is still processed. -/
def members_xml : List ZipMember → List XmlContent
  | [] => []
  | m :: rest =>
    if pyEndsWith (pyLower m.filename) ".xml" then
      match m.zread with
      | some x => x :: members_xml rest
      | Option.none => members_xml rest
    else members_xml rest

/-- The per-file body of `extract_xml_from_files`: read the blob (a failing
read skips the file); a name ending in `.zip` (case-sensitive) is opened as an
archive (failure to open skips the file); otherwise a name whose lowercase
form ends in `.xml` contributes the blob itself. -/
def extract_one (file : UploadedFile) : List XmlContent :=
  match file.fread with
  | Option.none => []
  | some content =>
    if pyEndsWith file.name ".zip" then
      match content with
      | Blob.zip members => members_xml members
      | Blob.notZip _ => []
    else if pyEndsWith (pyLower file.name) ".xml" then [blob_as_xml content]
    else []

/-- `extract_xml_from_files(uploaded_files)`: concatenation of the per-file
contributions, in input order. -/
def extract_xml_from_files : List UploadedFile → List XmlContent
  | [] => []
  | file :: rest => extract_one file ++ extract_xml_from_files rest

/-! ## Document extractor (`parse_nfe_xml`) -/

/-- The header-loop body of `parse_nfe_xml` for one entry of
`selected_fields`: skips unselected, item-level, and unmapped names, then
stores the field's extracted value, with the special cases for
`Chave de Acesso`, `Versão`, and the two CNPJ-with-CPF-fallback fields. -/
def header_step (root : XElem) (nfe_version : String) (header_data : Record)
    (kv : String × Bool) : Record :=
  let field_name := kv.1
  if !kv.2 || ITEM_FIELDS.contains field_name then header_data
  else
    match XPATH_MAP.lookup field_name with
    | Option.none => header_data
    | some xpath =>
      if xpath = "" then header_data
      else if field_name = "Chave de Acesso" then
        match safe_find_attribute root xpath "Id" Option.none with
        | some chave =>
          if chave = "" then dictSet header_data field_name Value.none
          else dictSet header_data field_name (Value.str (pyReplaceNFe chave))
        | Option.none => dictSet header_data field_name Value.none
      else if field_name = "Versão" then
        dictSet header_data field_name (Value.str nfe_version)
      else if field_name = "CNPJ do Emitente" then
        let cnpj := safe_find_text root xpath Option.none
        let cnpj :=
          if !optTruthy cnpj then
            safe_find_text root ((XPATH_MAP.lookup "CPF do Emitente").getD "") Option.none
          else cnpj
        dictSet header_data field_name (optToValue cnpj)
      else if field_name = "CNPJ do Destinatário" then
        let cnpj := safe_find_text root xpath Option.none
        let cnpj :=
          if !optTruthy cnpj then
            safe_find_text root ((XPATH_MAP.lookup "CPF do Destinatário").getD "") Option.none
          else cnpj
        dictSet header_data field_name (optToValue cnpj)
      else
        dictSet header_data field_name (optToValue (safe_find_text root xpath Option.none))

/-- The value the `Chave de Acesso` branch of the header loop stores: the
stripped `Id` attribute with every `NFe` occurrence removed when the
attribute is present and truthy, `None` otherwise. -/
def chave_value (root : XElem) : Value :=
  match safe_find_attribute root ".//nfe:infNFe" "Id" Option.none with
  | some chave => if chave = "" then Value.none else Value.str (pyReplaceNFe chave)
  | Option.none => Value.none

/-- `value if value is not None else 0.0` for the ICMS decimal fields. -/
def orZero : Value → Value
  | Value.none => Value.num "0.0"
  | v => v

/-- The DIFAL `tag_map` dictionary of the source, verbatim. -/
def tag_map : List (String × String) := [
  ("BC ICMS UF Destino", "vBCUFDest"),
  ("BC FCP UF Destino", "vBCFCPUFDest"),
  ("Percentual FCP UF Destino", "pFCPUFDest"),
  ("Alíquota Interna UF Destino", "pICMSUFDest"),
  ("Alíquota Interestadual", "pICMSInter"),
  ("Percentual Partilha ICMS", "pICMSInterPart"),
  ("Valor FCP UF Destino", "vFCPUFDest"),
  ("Valor ICMS UF Destino", "vICMSUFDest"),
  ("Valor ICMS UF Remetente", "vICMSUFRemet")]

/-- The DIFAL field names handled by the `ICMSUFDest` branch of the item loop. -/
def DIFAL_FIELDS : List String := [
  "BC ICMS UF Destino", "BC FCP UF Destino", "Percentual FCP UF Destino",
  "Alíquota Interna UF Destino", "Alíquota Interestadual", "Percentual Partilha ICMS",
  "Valor FCP UF Destino", "Valor ICMS UF Destino", "Valor ICMS UF Remetente"]

/-- The item-loop per-field value of `parse_nfe_xml`: `some v` means the
source assigns `v` to `row_data[field_name]`; `Option.none` means no
assignment happens (only possible in the dead `if tag:` guard of the DIFAL
branch). -/
def item_field_value (item : XElem) (field_name : String) : Option Value :=
  if field_name = "Origem da Mercadoria" then some (extract_icms_field item "orig")
  else if field_name = "CST ICMS" then some (extract_icms_field item "CST")
  else if field_name = "Modalidade BC ICMS" then some (extract_icms_field item "modBC")
  else if field_name = "Base Cálculo ICMS" then some (orZero (extract_icms_field item "vBC"))
  else if field_name = "Alíquota ICMS" then some (orZero (extract_icms_field item "pICMS"))
  else if field_name = "Valor ICMS" then some (orZero (extract_icms_field item "vICMS"))
  else if field_name = "Valor IPI" then some (extract_tax_value item "IPI" "vIPI")
  else if field_name = "Valor PIS" then some (extract_tax_value item "PIS" "vPIS")
  else if field_name = "Valor COFINS" then some (extract_tax_value item "COFINS" "vCOFINS")
  else if DIFAL_FIELDS.contains field_name then
    match tag_map.lookup field_name with
    | some tag =>
      match extract_icmsufdest_field item tag with
      | some s => some (Value.num s)
      | Option.none => some (Value.num "0.0")
    | Option.none => Option.none
  else if ["Quantidade Comercial", "Valor Unitário", "Valor Total Item"].contains field_name then
    let xpath := (XPATH_MAP.lookup field_name).getD ""
    match safe_find_text item xpath Option.none with
    | some t =>
      if t = "" then some (Value.num "0.0")
      else if pyFloatParses t then some (Value.num t) else some (Value.num "0.0")
    | Option.none => some (Value.num "0.0")
  else
    let xpath := (XPATH_MAP.lookup field_name).getD ""
    some (optToValue (safe_find_text item xpath Option.none))

/-- The item-loop body of `parse_nfe_xml` for one name of `ITEM_FIELDS`:
skips unselected fields and `Número do Item` (already processed), otherwise
assigns the extracted value. -/
def item_step (sel : Selection) (item : XElem) (row_data : Record)
    (field_name : String) : Record :=
  if !lookupTrue sel field_name then row_data
  else if field_name = "Número do Item" then row_data
  else
    match item_field_value item field_name with
    | some v => dictSet row_data field_name v
    | Option.none => row_data

/-- One iteration of the `for item in items` loop: copy the document record,
store the `nItem` attribute if selected, then run the item-field loop. -/
def item_row (header_data : Record) (sel : Selection) (item : XElem) : Record :=
  let nitem := (item.getAttr "nItem").getD ""
  let row_data :=
    if lookupTrue sel "Número do Item" then
      dictSet header_data "Número do Item"
        (if nitem = "" then Value.none else Value.str nitem)
    else header_data
  List.foldl (item_step sel item) row_data ITEM_FIELDS

/-- The document record built by the header loop of `parse_nfe_xml`. -/
def build_header_data (root : XElem) (sel : Selection) : Record :=
  List.foldl (header_step root (detect_nfe_version root)) [] sel

/-- `parse_nfe_xml(xml_content, selected_fields)`: on parse failure an empty
list; otherwise the header record is built once, and one row per `det` node
is produced (falling back to the lone header record when there are no `det`
nodes and the header record is non-empty). -/
def parse_nfe_xml (xml_content : XmlContent) (selected_fields : Selection) :
    List Record :=
  match fromstring xml_content with
  | Option.none => []
  | some root =>
    let header_data := build_header_data root selected_fields
    let items := root.dets
    if items.isEmpty then
      if header_data.isEmpty then [] else [header_data]
    else
      let results := items.map (item_row header_data selected_fields)
      if results.isEmpty then [header_data] else results

/-! ## Batch aggregator (`process_nfe_files`) -/

/-- A pandas DataFrame, at the granularity this program uses it: an ordered
column-name list and the rows (each row listing the cell of each column in
column order). -/
structure DataFrame : Type where
  columns : List String
  rows : List (List Value)
deriving DecidableEq

/-- `pd.DataFrame()`: the empty frame. -/
def DataFrame.empty : DataFrame := ⟨[], []⟩

/-- One key of one record, appended to the column order on first
appearance. -/
def add_column_step (cols : List String) (kv : String × Value) : List String :=
  if cols.contains kv.1 then cols else cols ++ [kv.1]

/-- Column order of `pd.DataFrame(records)`: first appearance across the
records. -/
def record_columns (records : List Record) : List String :=
  List.foldl (fun cols r => List.foldl add_column_step cols r) [] records

/-- One row of `pd.DataFrame(records)`: the record's value per column, NaN
for a missing key. -/
def row_of_record (cols : List String) (r : Record) : List Value :=
  cols.map (fun c => (r.lookup c).getD Value.nan)

/-- `pd.DataFrame(all_records)`. -/
def df_of_records (records : List Record) : DataFrame :=
  ⟨record_columns records, records.map (row_of_record (record_columns records))⟩

/-- The cell of a row under a given column name. -/
def row_cell (columns : List String) (row : List Value) (c : String) : Value :=
  ((columns.zip row).lookup c).getD Value.nan

/-- Column projection / reordering `df[cols]`. -/
def df_select (df : DataFrame) (cols : List String) : DataFrame :=
  ⟨cols, df.rows.map (fun row => cols.map (row_cell df.columns row))⟩

/-- Column assignment `df[c] = v` with a scalar: overwrite the column if it
exists, otherwise append it filled with `v`. -/
def df_set_column (df : DataFrame) (c : String) (v : Value) : DataFrame :=
  if df.columns.contains c then
    ⟨df.columns,
     df.rows.map (fun row => (df.columns.zip row).map (fun kv => if kv.1 = c then v else kv.2))⟩
  else ⟨df.columns ++ [c], df.rows.map (fun row => row ++ [v])⟩

/-- Pointwise update of one column. -/
def df_map_column (df : DataFrame) (c : String) (f : Value → Value) : DataFrame :=
  ⟨df.columns,
   df.rows.map (fun row => (df.columns.zip row).map (fun kv => if kv.1 = c then f kv.2 else kv.2))⟩

/-- Model of Python substring containment `pat in s` over character lists. -/
def pySubstr (pat : List Char) : List Char → Bool
  | [] => pat.isEmpty
  | c :: rest => List.isPrefixOf pat (c :: rest) || pySubstr pat rest

/-- The keyword test of the (dead) backfill loop:
`any(keyword in col for keyword in [...])`, substring containment. -/
def numeric_default_keyword (col : String) : Bool :=
  ["Valor", "Quantidade", "Alíquota", "Base", "Percentual", "BC"].any
    (fun kw => pySubstr kw.data col.data)

/-- The source's `numeric_fields` list, verbatim. -/
def numeric_fields : List String := [
  "Quantidade Comercial", "Valor Unitário", "Valor Total Item",
  "Base Cálculo ICMS", "Alíquota ICMS", "Valor ICMS",
  "Valor IPI", "Valor PIS", "Valor COFINS",
  "Valor Total da NF", "Valor Total dos Produtos", "Valor Total do ICMS", "Valor Total do IPI",
  "BC ICMS UF Destino", "BC FCP UF Destino", "Percentual FCP UF Destino",
  "Alíquota Interna UF Destino", "Alíquota Interestadual", "Percentual Partilha ICMS",
  "Valor FCP UF Destino", "Valor ICMS UF Destino", "Valor ICMS UF Remetente"]

/-- `pd.to_numeric(col, errors='coerce').fillna(0.0)` on one cell: floats are
kept, parseable strings become floats, everything else becomes `0.0`. -/
def to_numeric_fillna0 : Value → Value
  | Value.num s => Value.num s
  | Value.str s => if pyFloatParses s then Value.num s else Value.num "0.0"
  | Value.none => Value.num "0.0"
  | Value.nan => Value.num "0.0"

/-- The column-ordering expression of `process_nfe_files`:
`[col for col in selected_fields.keys() if col in df.columns and selected_fields[col]]`. -/
def ordered_cols (sel : Selection) (cols : List String) : List String :=
  (sel.map Prod.fst).filter (fun c => cols.contains c && lookupTrue sel c)

/-- The body of the (dead) backfill loop of `process_nfe_files`: add a
missing selected column with its keyword-chosen default. -/
def backfill_step (df : DataFrame) (col : String) : DataFrame :=
  if df.columns.contains col then df
  else df_set_column df col
    (if numeric_default_keyword col then Value.num "0.0" else Value.none)

/-- The body of the numeric re-coercion loop of `process_nfe_files`:
`df[field] = pd.to_numeric(df[field], errors='coerce').fillna(0.0)` for a
field present in the frame. -/
def coerce_numeric_step (df : DataFrame) (f : String) : DataFrame :=
  if df.columns.contains f then df_map_column df f to_numeric_fillna0 else df

/-- The tail of `process_nfe_files` after the records have been gathered:
DataFrame construction, column ordering, the (dead) backfill loop, column
projection, and the table-wide numeric re-coercion pass. -/
def build_dataframe (all_records : List Record) (sel : Selection) : DataFrame :=
  let df := df_of_records all_records
  let ordered := ordered_cols sel df.columns
  let df := List.foldl backfill_step df ordered
  let df := df_select df ordered
  List.foldl coerce_numeric_step df numeric_fields

/-- The record-gathering loop of `process_nfe_files`: concatenate
`parse_nfe_xml` over the buffers, in buffer order. -/
def collect_records : List XmlContent → Selection → List Record
  | [], _ => []
  | c :: rest, sel => parse_nfe_xml c sel ++ collect_records rest sel

/-- `process_nfe_files(uploaded_files, selected_fields)`. -/
def process_nfe_files (uploaded_files : List UploadedFile) (selected_fields : Selection) :
    DataFrame :=
  if uploaded_files.isEmpty then DataFrame.empty
  else if (extract_xml_from_files uploaded_files).isEmpty then DataFrame.empty
  else if (collect_records (extract_xml_from_files uploaded_files) selected_fields).isEmpty then
    DataFrame.empty
  else
    build_dataframe (collect_records (extract_xml_from_files uploaded_files) selected_fields)
      selected_fields

/-! ## The DECIMAL field catalog of the numeric-default policy

The 22 names of `numeric_fields` are exactly the DECIMAL-kind fields.  For
each one, the xpath below is the locator its extraction branch queries: the
ICMS, IPI/PIS/COFINS and DIFAL branches of the item loop build it by string
concatenation (`extract_icms_field`, `extract_tax_value`,
`extract_icmsufdest_field`), the product branches and the header totals read
`XPATH_MAP`. -/

/-- The item-level DECIMAL fields with the locator each branch queries. -/
def item_decimal_paths : List (String × String) := [
  ("Quantidade Comercial", ".//nfe:prod/nfe:qCom"),
  ("Valor Unitário", ".//nfe:prod/nfe:vUnCom"),
  ("Valor Total Item", ".//nfe:prod/nfe:vProd"),
  ("Base Cálculo ICMS", ".//nfe:imposto/nfe:ICMS//nfe:vBC"),
  ("Alíquota ICMS", ".//nfe:imposto/nfe:ICMS//nfe:pICMS"),
  ("Valor ICMS", ".//nfe:imposto/nfe:ICMS//nfe:vICMS"),
  ("Valor IPI", ".//nfe:imposto/nfe:IPI//nfe:vIPI"),
  ("Valor PIS", ".//nfe:imposto/nfe:PIS//nfe:vPIS"),
  ("Valor COFINS", ".//nfe:imposto/nfe:COFINS//nfe:vCOFINS"),
  ("BC ICMS UF Destino", ".//nfe:imposto/nfe:ICMSUFDest/nfe:vBCUFDest"),
  ("BC FCP UF Destino", ".//nfe:imposto/nfe:ICMSUFDest/nfe:vBCFCPUFDest"),
  ("Percentual FCP UF Destino", ".//nfe:imposto/nfe:ICMSUFDest/nfe:pFCPUFDest"),
  ("Alíquota Interna UF Destino", ".//nfe:imposto/nfe:ICMSUFDest/nfe:pICMSUFDest"),
  ("Alíquota Interestadual", ".//nfe:imposto/nfe:ICMSUFDest/nfe:pICMSInter"),
  ("Percentual Partilha ICMS", ".//nfe:imposto/nfe:ICMSUFDest/nfe:pICMSInterPart"),
  ("Valor FCP UF Destino", ".//nfe:imposto/nfe:ICMSUFDest/nfe:vFCPUFDest"),
  ("Valor ICMS UF Destino", ".//nfe:imposto/nfe:ICMSUFDest/nfe:vICMSUFDest"),
  ("Valor ICMS UF Remetente", ".//nfe:imposto/nfe:ICMSUFDest/nfe:vICMSUFRemet")]

/-- The item-level DECIMAL field names. -/
def item_decimal_fields : List String := item_decimal_paths.map Prod.fst

/-- The locator an item-level DECIMAL field's extraction branch queries. -/
def item_decimal_path (f : String) : String := (item_decimal_paths.lookup f).getD ""

/-- The header-level DECIMAL fields (the document totals). -/
def header_decimal_fields : List String :=
  ["Valor Total da NF", "Valor Total dos Produtos", "Valor Total do ICMS",
   "Valor Total do IPI"]

/-- The locator a header-level DECIMAL field's extraction queries
(read from `XPATH_MAP`). -/
def header_decimal_path (f : String) : String := (XPATH_MAP.lookup f).getD ""

/-- The two failure modes of the numeric-default policy for one locator on
one context element: the locator matches no node, or the matched node's text
is non-empty (truthy) but does not parse as a Python float. -/
def decimal_lookup_fails (el : XElem) (path : String) : Prop :=
  el.find path = Option.none ∨
  ∃ (node : XElem) (t : String), el.find path = some node ∧ node.text = some t ∧
    t ≠ "" ∧ pyFloatParses (pyStrip t) = false

/-! ## Concrete documents and selections used as test inputs -/

/-- An element with no matches for any xpath. -/
def noFind : String → Option XElem := fun _ => Option.none

/-- A leaf element holding only text. -/
def leaf (t : String) : XElem := XElem.mk (some t) [] noFind []

/-- A `det` element with an `nItem` attribute and a product description. -/
def detProd (n desc : String) : XElem :=
  XElem.mk Option.none [("nItem", n)]
    (fun p => if p = ".//nfe:prod/nfe:xProd" then some (leaf desc) else Option.none) []

/-- A well-formed document with `nNF = "123"`, `vNF = "500.00"` and two `det`
items. -/
def docTwoDet : XElem :=
  XElem.mk Option.none []
    (fun p =>
      if p = ".//nfe:ide/nfe:nNF" then some (leaf "123")
      else if p = ".//nfe:total/nfe:ICMSTot/nfe:vNF" then some (leaf "500.00")
      else Option.none)
    [detProd "1" "Produto A", detProd "2" "Produto B"]

/-- A well-formed document with `nNF = "123"` and zero `det` items. -/
def docNoDet : XElem :=
  XElem.mk Option.none []
    (fun p => if p = ".//nfe:ide/nfe:nNF" then some (leaf "123") else Option.none)
    []

/-- Scenario A selection: two HEADER fields, no ITEM field. -/
def selA : Selection := [("Número da NF", true), ("Valor Total da NF", true)]

/-- Scenario B selection: Scenario A plus one ITEM field. -/
def selB : Selection :=
  [("Número da NF", true), ("Valor Total da NF", true), ("Descrição do Produto", true)]

/-- Selection with one HEADER and one ITEM field (used for the backfill bug). -/
def selHI : Selection := [("Número da NF", true), ("Descrição do Produto", true)]

/-- An uploaded `.xml` file wrapping a well-formed document. -/
def xmlFile (name : String) (root : XElem) : UploadedFile :=
  ⟨name, some (Blob.notZip (XmlContent.wellFormed root))⟩

/-- An uploaded `.xml` file whose bytes are malformed XML. -/
def badXmlFile : UploadedFile := ⟨"bad.xml", some (Blob.notZip XmlContent.malformed)⟩

/-- An uploaded file whose `.read()` raises. -/
def unreadableFile : UploadedFile := ⟨"u.xml", Option.none⟩

/-- An item whose `qCom` text is not numeric and which has no `ICMS` node. -/
def itemC5 : XElem :=
  XElem.mk Option.none []
    (fun p => if p = ".//nfe:prod/nfe:qCom" then some (leaf "xyz") else Option.none) []

/-- A document whose `vNF` text is not numeric, with one `det` item
(`itemC5`). -/
def docC5 : XElem :=
  XElem.mk Option.none []
    (fun p =>
      if p = ".//nfe:total/nfe:ICMSTot/nfe:vNF" then some (leaf "abc") else Option.none)
    [itemC5]

/-- Selection of three DECIMAL fields (two ITEM-level, one HEADER-level). -/
def selC5 : Selection :=
  [("Valor ICMS", true), ("Quantidade Comercial", true), ("Valor Total da NF", true)]

/-- A zip archive blob with a single readable `.xml` member. -/
def zipBlobOneMember : Blob := Blob.zip [⟨"a.xml", some XmlContent.malformed⟩]

/-- The same archive bytes under an upper-case `.ZIP` name. -/
def zipFileUpper : UploadedFile := ⟨"DOCS.ZIP", some zipBlobOneMember⟩

/-- The same archive bytes under a lower-case `.zip` name. -/
def zipFileLower : UploadedFile := ⟨"docs.zip", some zipBlobOneMember⟩

/-- An archive member whose read raises. -/
def memberBad : ZipMember := ⟨"x.xml", Option.none⟩

/-- A readable archive member with an upper-case `.XML` name. -/
def memberGood : ZipMember := ⟨"y.XML", some XmlContent.malformed⟩

/-- An `infNFe` node carrying an `Id` attribute with several `NFe`
occurrences. -/
def chaveNode : XElem := XElem.mk Option.none [("Id", "NFe123NFe456NFe")] noFind []

/-- A document exposing only the `infNFe` node. -/
def docChave : XElem :=
  XElem.mk Option.none []
    (fun p => if p = ".//nfe:infNFe" then some chaveNode else Option.none) []

/-- Selection of the access key alone. -/
def selChave : Selection := [("Chave de Acesso", true)]

/-!
## Theorems

First, general lemmas on the association-list dictionary model and the
extraction loops; then one theorem (with witness or counterexample) per
specification claim.
-/

/-- A successful first-binding lookup is a member of the association list. -/
theorem lookup_mem {α β : Type} [BEq α] [LawfulBEq α] {l : List (α × β)} {k : α} {b : β}
    (h : l.lookup k = some b) : (k, b) ∈ l := by
  induction l with
  | nil => simp [List.lookup] at h
  | cons kv rest ih =>
    obtain ⟨k', b'⟩ := kv
    rw [List.lookup_cons] at h
    cases hkk : k == k' with
    | true =>
      rw [hkk] at h
      simp only [Option.some.injEq] at h
      subst h
      exact (eq_of_beq hkk) ▸ List.mem_cons_self _ _
    | false =>
      rw [hkk] at h
      exact List.mem_cons_of_mem _ (ih h)

/-- `d[k] = v` makes a later `d.lookup k` yield `v`. -/
theorem dictSet_lookup_self (d : Record) (k : String) (v : Value) :
    (dictSet d k v).lookup k = some v := by
  induction d with
  | nil => simp [dictSet, List.lookup_cons]
  | cons kv rest ih =>
    obtain ⟨k', v'⟩ := kv
    by_cases h : k' = k
    · subst h
      simp [dictSet, List.lookup_cons]
    · simp only [dictSet, if_neg h, List.lookup_cons]
      have : (k == k') = false := by
        simp [beq_iff_eq]
        exact fun hh => h hh.symm
      rw [this]
      exact ih

/-- `d[k] = v` leaves the lookup of any other key unchanged. -/
theorem dictSet_lookup_ne (d : Record) {k k' : String} (v : Value) (h : k' ≠ k) :
    (dictSet d k v).lookup k' = d.lookup k' := by
  induction d with
  | nil =>
    simp only [dictSet, List.lookup_cons, List.lookup_nil]
    have : (k' == k) = false := by simp [beq_iff_eq, h]
    rw [this]
  | cons kv rest ih =>
    obtain ⟨k'', v''⟩ := kv
    by_cases hk : k'' = k
    · have hne : (k' == k'') = false := by
        simp only [beq_eq_false_iff_ne, ne_eq]
        intro hh
        exact h (hh.trans hk)
      simp only [dictSet, if_pos hk, List.lookup_cons, hne]
    · simp only [dictSet, if_neg hk, List.lookup_cons]
      cases hkk : k' == k'' with
      | true => rfl
      | false => exact ih

/-- A dictionary with a successful lookup is non-empty. -/
theorem ne_nil_of_lookup {l : Record} {k : String} {v : Value}
    (h : l.lookup k = some v) : l ≠ [] := by
  intro he
  rw [he] at h
  simp [List.lookup] at h

/-- `lookupTrue sel f = true` comes from a literal `(f, true)` first binding. -/
theorem lookup_of_lookupTrue {sel : Selection} {f : String}
    (h : lookupTrue sel f = true) : sel.lookup f = some true := by
  unfold lookupTrue at h
  cases hl : sel.lookup f with
  | none => rw [hl] at h; simp at h
  | some b => rw [hl] at h; simp only [Option.getD_some] at h; rw [h]

/-- From an all-selected-fields-are-header hypothesis, no item field is
selected. -/
theorem no_item_selected {sel : Selection}
    (hno : (sel.all fun kv => !(kv.2 && ITEM_FIELDS.contains kv.1)) = true) :
    ∀ f ∈ ITEM_FIELDS, lookupTrue sel f = false := by
  intro f hf
  cases hl : lookupTrue sel f with
  | false => rfl
  | true =>
    exfalso
    have hmem : (f, true) ∈ sel := lookup_mem (lookup_of_lookupTrue hl)
    have hh := (List.all_eq_true.mp hno) _ hmem
    simp at hh
    exact hh hf

/-- A field that is not selected leaves the item row unchanged. -/
theorem item_step_skip {sel : Selection} {item : XElem} {row : Record} {f : String}
    (h : lookupTrue sel f = false) : item_step sel item row f = row := by
  simp [item_step, h]

/-- A run of unselected fields leaves the item row unchanged. -/
theorem foldl_item_step_skip {sel : Selection} {item : XElem} {l : List String}
    (h : ∀ f ∈ l, lookupTrue sel f = false) :
    ∀ row : Record, List.foldl (item_step sel item) row l = row := by
  induction l with
  | nil => intro row; rfl
  | cons f rest ih =>
    intro row
    rw [List.foldl_cons, item_step_skip (h f (List.mem_cons_self f rest))]
    exact ih (fun g hg => h g (List.mem_cons_of_mem f hg)) row

/-- One item-field step never changes the cell of a different key. -/
theorem item_step_lookup_ne {sel : Selection} {item : XElem} {row : Record}
    {f k : String} (h : f ≠ k) :
    (item_step sel item row f).lookup k = row.lookup k := by
  unfold item_step
  cases lookupTrue sel f with
  | false => rfl
  | true =>
    by_cases h2 : f = "Número do Item"
    · simp [h2]
    · simp only [Bool.not_true, Bool.false_eq_true, if_false, if_neg h2]
      cases item_field_value item f with
      | none => rfl
      | some v => exact dictSet_lookup_ne row v (Ne.symm h)

/-- The item-field loop never changes the cell of a key outside the field
list. -/
theorem foldl_item_step_lookup_ne {sel : Selection} {item : XElem}
    {l : List String} {k : String} (h : ∀ f ∈ l, f ≠ k) :
    ∀ row : Record, (List.foldl (item_step sel item) row l).lookup k = row.lookup k := by
  induction l with
  | nil => intro row; rfl
  | cons f rest ih =>
    intro row
    rw [List.foldl_cons, ih (fun g hg => h g (List.mem_cons_of_mem f hg))]
    exact item_step_lookup_ne (h f (List.mem_cons_self f rest))

/-- With no ITEM-level field selected, an item contributes a copy of the
document record itself. -/
theorem item_row_eq_header {hd : Record} {sel : Selection} {item : XElem}
    (hno : ∀ f ∈ ITEM_FIELDS, lookupTrue sel f = false) :
    item_row hd sel item = hd := by
  have h1 : lookupTrue sel "Número do Item" = false := hno _ (by decide)
  unfold item_row
  simp only [h1, Bool.false_eq_true, if_false]
  exact foldl_item_step_skip hno hd

/-- With no ITEM-level field selected, the item loop yields one copy of the
document record per item. -/
theorem map_item_row_const {hd : Record} {sel : Selection} (l : List XElem)
    (hno : ∀ f ∈ ITEM_FIELDS, lookupTrue sel f = false) :
    l.map (item_row hd sel) = List.replicate l.length hd := by
  rw [List.map_congr_left (fun it _ => item_row_eq_header hno)]
  exact List.map_const' l hd

/-- C1: refuted as stated.  With the Scenario A selection (two HEADER fields,
no ITEM field selected) on a well-formed document with two `det` items and a
non-empty Document Record, `parse_nfe_xml` returns two records, not the
claimed single Document-Record row: the extractor has no
no-ITEM-field-selected branch and always iterates the `det` nodes. -/
theorem C1_counterexample :
    ((selA.all fun kv => !(kv.2 && ITEM_FIELDS.contains kv.1)) = true) ∧
    docTwoDet.dets.length = 2 ∧
    (build_header_data docTwoDet selA).isEmpty = false ∧
    (parse_nfe_xml (XmlContent.wellFormed docTwoDet) selA).length = 2 := by
  exact ⟨by decide, by decide, by decide, by decide⟩

/-- C1 (amended): for a selection in which no selected field is ITEM-level,
`parse_nfe_xml` on a well-formed document returns one copy of the Document
Record per `det` node when the document has at least one `det` node, and
falls back to the Document Record alone (or nothing, when it is empty) only
when the document has zero `det` nodes. -/
theorem C1_amended_row_per_det (root : XElem) (sel : Selection)
    (hno : (sel.all fun kv => !(kv.2 && ITEM_FIELDS.contains kv.1)) = true) :
    parse_nfe_xml (XmlContent.wellFormed root) sel =
      if root.dets.isEmpty then
        if (build_header_data root sel).isEmpty then [] else [build_header_data root sel]
      else List.replicate root.dets.length (build_header_data root sel) := by
  have hno' := no_item_selected hno
  cases hdl : root.dets with
  | nil => simp [parse_nfe_xml, fromstring, hdl]
  | cons d ds =>
    simp only [parse_nfe_xml, fromstring, hdl, List.isEmpty_cons, Bool.false_eq_true,
      if_false]
    rw [map_item_row_const (d :: ds) hno']
    simp [List.replicate]

/-- C1 (amended) witness: the amended statement evaluated on the concrete
two-item Scenario A document. -/
theorem C1_amended_witness :
    parse_nfe_xml (XmlContent.wellFormed docTwoDet) selA =
      if docTwoDet.dets.isEmpty then
        if (build_header_data docTwoDet selA).isEmpty then []
        else [build_header_data docTwoDet selA]
      else List.replicate docTwoDet.dets.length (build_header_data docTwoDet selA) :=
  C1_amended_row_per_det docTwoDet selA (by decide)

/-- C2: confirmed.  For a well-formed document with at least one `det` node
and a selection with at least one ITEM-level field, `parse_nfe_xml` returns
exactly one record per `det` node, and every record agrees with the Document
Record on every non-ITEM (HEADER) field: each row is built from a copy of the
same Document Record, so selected HEADER fields are identical across the
rows. -/
theorem C2_row_per_item (root : XElem) (sel : Selection)
    (hN : root.dets.length ≠ 0)
    (_hitem : (sel.any fun kv => kv.2 && ITEM_FIELDS.contains kv.1) = true) :
    (parse_nfe_xml (XmlContent.wellFormed root) sel).length = root.dets.length ∧
    ∀ r ∈ parse_nfe_xml (XmlContent.wellFormed root) sel, ∀ k : String,
      ITEM_FIELDS.contains k = false →
      r.lookup k = (build_header_data root sel).lookup k := by
  cases hdl : root.dets with
  | nil => rw [hdl] at hN; simp at hN
  | cons d ds =>
    have hform : parse_nfe_xml (XmlContent.wellFormed root) sel =
        (d :: ds).map (item_row (build_header_data root sel) sel) := by
      simp [parse_nfe_xml, fromstring, hdl]
    constructor
    · rw [hform]
      simp
    · intro r hr k hk
      rw [hform] at hr
      obtain ⟨it, _, hrit⟩ := List.mem_map.mp hr
      have hne : ∀ f ∈ ITEM_FIELDS, f ≠ k := by
        intro f hf hfk
        rw [hfk] at hf
        have hc : ITEM_FIELDS.contains k = true := List.elem_eq_true_of_mem hf
        rw [hc] at hk
        exact Bool.noConfusion hk
      rw [← hrit]
      unfold item_row
      rw [foldl_item_step_lookup_ne hne]
      by_cases hni : lookupTrue sel "Número do Item" = true
      · simp only [hni, if_true]
        exact dictSet_lookup_ne _ _ (hne "Número do Item" (by decide)).symm
      · simp only [hni, Bool.false_eq_true, if_false]

/-- C2 witness: the theorem applied to the concrete Scenario B document
(two items, one ITEM field and two HEADER fields selected). -/
theorem C2_witness :
    (parse_nfe_xml (XmlContent.wellFormed docTwoDet) selB).length =
      docTwoDet.dets.length ∧
    ∀ r ∈ parse_nfe_xml (XmlContent.wellFormed docTwoDet) selB, ∀ k : String,
      ITEM_FIELDS.contains k = false →
      r.lookup k = (build_header_data docTwoDet selB).lookup k :=
  C2_row_per_item docTwoDet selB (by decide) (by decide)

/-- C9: confirmed.  A well-formed document with zero `det` nodes yields
exactly the Document Record as its single row, whenever some selected ITEM
field exists and some HEADER field extracted to a non-default value (which
makes the Document Record non-empty). -/
theorem C9_zero_item_fallback (root : XElem) (sel : Selection) (k : String) (v : Value)
    (hdets : root.dets = [])
    (_hitem : (sel.any fun kv => kv.2 && ITEM_FIELDS.contains kv.1) = true)
    (hk : (build_header_data root sel).lookup k = some v)
    (_hv : v ≠ Value.none ∧ v ≠ Value.num "0.0") :
    parse_nfe_xml (XmlContent.wellFormed root) sel = [build_header_data root sel] := by
  have hne : (build_header_data root sel).isEmpty = false := by
    cases hh : build_header_data root sel with
    | nil => rw [hh] at hk; simp [List.lookup] at hk
    | cons a l => rfl
  simp [parse_nfe_xml, fromstring, hdets, hne]

/-- C9 witness: the theorem applied to the concrete zero-item document with
one ITEM field and one non-default HEADER field selected. -/
theorem C9_witness :
    parse_nfe_xml (XmlContent.wellFormed docNoDet) selHI =
      [build_header_data docNoDet selHI] :=
  C9_zero_item_fallback docNoDet selHI "Número da NF" (Value.str "123") rfl (by decide)
    (by decide) (by decide)

/-- One header-loop step never changes the cell of a key other than its own
field name. -/
theorem header_step_lookup_ne {root : XElem} {ver : String} {hd : Record}
    {kv : String × Bool} {k : String} (h : k ≠ kv.1) :
    (header_step root ver hd kv).lookup k = hd.lookup k := by
  obtain ⟨f, b⟩ := kv
  unfold header_step
  dsimp only
  repeat' split
  all_goals first
    | rfl
    | exact dictSet_lookup_ne _ _ h

/-- A run of header-loop steps for other field names never changes a key's
cell. -/
theorem foldl_header_lookup_ne {root : XElem} {ver : String} {l : Selection}
    {k : String} (h : ∀ kv ∈ l, kv.1 ≠ k) :
    ∀ hd : Record, (List.foldl (header_step root ver) hd l).lookup k = hd.lookup k := by
  induction l with
  | nil => intro hd; rfl
  | cons kv rest ih =>
    intro hd
    rw [List.foldl_cons, ih (fun g hg => h g (List.mem_cons_of_mem kv hg))]
    exact header_step_lookup_ne (h kv (List.mem_cons_self kv rest)).symm

/-- The header-loop step on the selected access-key entry stores
`chave_value`. -/
theorem header_step_chave (root : XElem) (ver : String) (hd : Record) :
    header_step root ver hd ("Chave de Acesso", true) =
      dictSet hd "Chave de Acesso" (chave_value root) := by
  show (match safe_find_attribute root ".//nfe:infNFe" "Id" Option.none with
        | some chave =>
          if chave = "" then dictSet hd "Chave de Acesso" Value.none
          else dictSet hd "Chave de Acesso" (Value.str (pyReplaceNFe chave))
        | Option.none => dictSet hd "Chave de Acesso" Value.none) =
      dictSet hd "Chave de Acesso" (chave_value root)
  unfold chave_value
  cases safe_find_attribute root ".//nfe:infNFe" "Id" Option.none with
  | none => rfl
  | some chave =>
    by_cases hc : chave = ""
    · simp [hc]
    · simp [hc]

/-- In a duplicate-free selection that selects the access key, the header
loop's record holds `chave_value` under the access-key name. -/
theorem foldl_header_lookup_chave (root : XElem) (ver : String) (sel : Selection)
    (hnd : (sel.map Prod.fst).Nodup)
    (hsel : sel.lookup "Chave de Acesso" = some true) :
    ∀ hd : Record,
      (List.foldl (header_step root ver) hd sel).lookup "Chave de Acesso" =
        some (chave_value root) := by
  induction sel with
  | nil => intro hd; simp [List.lookup] at hsel
  | cons kv rest ih =>
    intro hd
    obtain ⟨f, b⟩ := kv
    rw [List.map_cons, List.nodup_cons] at hnd
    rw [List.lookup_cons] at hsel
    cases hf : ("Chave de Acesso" == f) with
    | true =>
      rw [hf] at hsel
      have hfe : f = "Chave de Acesso" := (eq_of_beq hf).symm
      have hb : b = true := by
        simpa using hsel
      subst hfe
      subst hb
      rw [List.foldl_cons, header_step_chave root ver hd]
      have hrest : ∀ g ∈ rest, (Prod.fst g) ≠ "Chave de Acesso" := by
        intro g hg hgk
        have hmm : Prod.fst g ∈ List.map Prod.fst rest := List.mem_map_of_mem Prod.fst hg
        rw [hgk] at hmm
        exact hnd.1 hmm
      rw [foldl_header_lookup_ne hrest]
      exact dictSet_lookup_self hd _ _
    | false =>
      rw [hf] at hsel
      exact List.foldl_cons _ _ ▸ ih hnd.2 hsel _

/-- C10: confirmed.  When `Chave de Acesso` is selected (in a duplicate-free
selection), the stored access key is the stripped `Id` attribute of the
`infNFe` node with every occurrence of the substring `NFe` removed
(`str.replace` removes all occurrences, not only a leading prefix); when the
node or its attribute is absent, or the attribute is the empty string, the
stored value is `None`. -/
theorem C10_chave_replace_all (root : XElem) (sel : Selection)
    (hnd : (sel.map Prod.fst).Nodup)
    (hsel : sel.lookup "Chave de Acesso" = some true) :
    (∀ node : XElem, ∀ a : String, root.find ".//nfe:infNFe" = some node →
        node.getAttr "Id" = some a → pyStrip a ≠ "" →
        (build_header_data root sel).lookup "Chave de Acesso" =
          some (Value.str (pyReplaceNFe (pyStrip a)))) ∧
    (root.find ".//nfe:infNFe" = Option.none →
        (build_header_data root sel).lookup "Chave de Acesso" = some Value.none) ∧
    (∀ node : XElem, root.find ".//nfe:infNFe" = some node →
        node.getAttr "Id" = Option.none →
        (build_header_data root sel).lookup "Chave de Acesso" = some Value.none) ∧
    (∀ node : XElem, root.find ".//nfe:infNFe" = some node →
        node.getAttr "Id" = some "" →
        (build_header_data root sel).lookup "Chave de Acesso" = some Value.none) := by
  have hmain := foldl_header_lookup_chave root (detect_nfe_version root) sel hnd hsel []
  refine ⟨?_, ?_, ?_, ?_⟩
  · intro node a hfind hattr hstrip
    have ha : a ≠ "" := by
      intro he
      rw [he] at hstrip
      exact hstrip rfl
    rw [build_header_data, hmain]
    unfold chave_value safe_find_attribute
    rw [hfind]
    dsimp only
    rw [hattr]
    dsimp only
    rw [if_neg ha]
    dsimp only
    rw [if_neg hstrip]
  · intro hfind
    rw [build_header_data, hmain]
    unfold chave_value safe_find_attribute
    rw [hfind]
  · intro node hfind hattr
    rw [build_header_data, hmain]
    unfold chave_value safe_find_attribute
    rw [hfind]
    dsimp only
    rw [hattr]
  · intro node hfind hattr
    rw [build_header_data, hmain]
    unfold chave_value safe_find_attribute
    rw [hfind]
    dsimp only
    rw [hattr]
    rfl

/-- C10 witness: on the concrete document whose `Id` attribute is
`"NFe123NFe456NFe"`, the stored access key is `"123456"`: every occurrence
of `NFe` was removed. -/
theorem C10_witness :
    (build_header_data docChave selChave).lookup "Chave de Acesso" =
      some (Value.str "123456") := by
  have h := (C10_chave_replace_all docChave selChave (by decide) (by decide)).1
    chaveNode "NFe123NFe456NFe" rfl rfl (by decide)
  exact h.trans (by decide)

/-- C3: the claimed backfill does not happen — the backfill loop of
`process_nfe_files` is dead code, because `ordered_cols` is pre-filtered to
columns already present in the DataFrame.  On a batch whose only record lacks
the selected ITEM field `Descrição do Produto` (a zero-item document), the
returned table omits that selected column entirely instead of backfilling it
with its default-for-missing. -/
theorem C3_backfill_dead :
    lookupTrue selHI "Descrição do Produto" = true ∧
    process_nfe_files [xmlFile "a.xml" docNoDet] selHI =
      ⟨["Número da NF"], [[Value.str "123"]]⟩ ∧
    (process_nfe_files [xmlFile "a.xml" docNoDet] selHI).columns.contains
      "Descrição do Produto" = false :=
  ⟨by decide, by decide, by decide⟩

/-- C6: refuted as stated.  The `.zip` suffix is matched case-sensitively
(`file.name.endswith('.zip')` without `.lower()`): the same archive bytes are
unwrapped under a lower-case `.zip` name but contribute nothing under an
upper-case `.ZIP` name. -/
theorem C6_counterexample :
    extract_xml_from_files [zipFileUpper] = [] ∧
    extract_xml_from_files [zipFileLower] = [XmlContent.malformed] :=
  ⟨rfl, rfl⟩

/-- `members_xml` distributes over archive-member concatenation. -/
theorem members_xml_append (a b : List ZipMember) :
    members_xml (a ++ b) = members_xml a ++ members_xml b := by
  induction a with
  | nil => rfl
  | cons m rest ih =>
    cases hx : pyEndsWith (pyLower m.filename) ".xml" <;>
      cases hr : m.zread <;> simp [members_xml, hx, hr, ih]

/-- A readable `.xml`-named member's content appears among the archive's
contributions. -/
theorem mem_members_xml {members : List ZipMember} {m : ZipMember} {x : XmlContent}
    (hm : m ∈ members) (hx : pyEndsWith (pyLower m.filename) ".xml" = true)
    (hr : m.zread = some x) : x ∈ members_xml members := by
  induction members with
  | nil => cases hm
  | cons m0 rest ih =>
    rcases List.mem_cons.mp hm with h0 | h0
    · subst h0
      simp [members_xml, hx, hr]
    · have hmem := ih h0
      cases hx0 : pyEndsWith (pyLower m0.filename) ".xml"
      · simpa [members_xml, hx0] using hmem
      · cases hr0 : m0.zread <;> simp [members_xml, hx0, hr0, hmem]

/-- C6 (amended): the `.zip` suffix is matched case-sensitively — a name
ending in `.zip` only in another letter case (and not in `.xml`
case-insensitively) contributes nothing, even when its bytes are a valid
archive; within an opened archive a member whose read fails is skipped while
the remaining members are still processed; and every readable member whose
name ends in `.xml` case-insensitively is yielded. -/
theorem C6_amended_zip_matching :
    (∀ (name : String) (pre post : List ZipMember) (m : ZipMember),
        pyEndsWith name ".zip" = true → m.zread = Option.none →
        extract_one ⟨name, some (Blob.zip (pre ++ m :: post))⟩ =
          extract_one ⟨name, some (Blob.zip (pre ++ post))⟩) ∧
    (∀ (name : String) (members : List ZipMember),
        pyEndsWith name ".zip" = false → pyEndsWith (pyLower name) ".xml" = false →
        extract_one ⟨name, some (Blob.zip members)⟩ = []) ∧
    (∀ (name : String) (members : List ZipMember) (m : ZipMember) (x : XmlContent),
        pyEndsWith name ".zip" = true → m ∈ members →
        pyEndsWith (pyLower m.filename) ".xml" = true → m.zread = some x →
        x ∈ extract_one ⟨name, some (Blob.zip members)⟩) := by
  refine ⟨?_, ?_, ?_⟩
  · intro name pre post m hz hm
    simp only [extract_one, hz, if_true]
    rw [members_xml_append, members_xml_append]
    cases hx : pyEndsWith (pyLower m.filename) ".xml" <;>
      simp [members_xml, hx, hm]
  · intro name members hz hx
    simp [extract_one, hz, hx]
  · intro name members m x hz hm hx hr
    simp only [extract_one, hz, if_true]
    exact mem_members_xml hm hx hr

/-- C6 (amended) witness: a lower-case `.zip` archive with a failing member
followed by a readable upper-case `.XML` member contributes exactly the
readable member. -/
theorem C6_amended_witness :
    extract_one ⟨"a.zip", some (Blob.zip [memberBad, memberGood])⟩ =
      extract_one ⟨"a.zip", some (Blob.zip [memberGood])⟩ ∧
    XmlContent.malformed ∈ extract_one ⟨"a.zip", some (Blob.zip [memberBad, memberGood])⟩ := by
  constructor
  · exact C6_amended_zip_matching.1 "a.zip" [] [memberGood] memberBad (by decide) rfl
  · exact C6_amended_zip_matching.2.2 "a.zip" [memberBad, memberGood] memberGood
      XmlContent.malformed (by decide)
      (List.mem_cons_of_mem _ (List.mem_cons_self _ _)) (by decide) rfl

/-- C7: confirmed.  One `.zip` archive whose two members are two documents
produces, for any selection, exactly the same table as the two documents
uploaded as standalone `.xml` blobs (identical, hence identical up to row
order). -/
theorem C7_archive_transparency (x1 x2 : XmlContent) (sel : Selection) :
    process_nfe_files
        [⟨"batch.zip", some (Blob.zip [⟨"a.xml", some x1⟩, ⟨"b.xml", some x2⟩])⟩] sel =
      process_nfe_files
        [⟨"a.xml", some (Blob.notZip x1)⟩, ⟨"b.xml", some (Blob.notZip x2)⟩] sel := rfl

/-- The archive unwrapper distributes over input concatenation. -/
theorem extract_append (a b : List UploadedFile) :
    extract_xml_from_files (a ++ b) =
      extract_xml_from_files a ++ extract_xml_from_files b := by
  induction a with
  | nil => rfl
  | cons f rest ih => simp [extract_xml_from_files, ih]

/-- Record gathering distributes over buffer concatenation. -/
theorem collect_append (a b : List XmlContent) (sel : Selection) :
    collect_records (a ++ b) sel = collect_records a sel ++ collect_records b sel := by
  induction a with
  | nil => rfl
  | cons c rest ih => simp [collect_records, ih]

/-- When no records are gathered, the batch yields the empty table. -/
theorem process_empty_of_collect_empty (files : List UploadedFile) (sel : Selection)
    (h : collect_records (extract_xml_from_files files) sel = []) :
    process_nfe_files files sel = DataFrame.empty := by
  unfold process_nfe_files
  rw [h]
  simp

/-- Two batches whose gathered records coincide yield the same table. -/
theorem process_eq_of_collect_eq (files1 files2 : List UploadedFile) (sel : Selection)
    (h : collect_records (extract_xml_from_files files1) sel =
         collect_records (extract_xml_from_files files2) sel) :
    process_nfe_files files1 sel = process_nfe_files files2 sel := by
  by_cases hR : collect_records (extract_xml_from_files files1) sel = []
  · rw [process_empty_of_collect_empty _ _ hR,
        process_empty_of_collect_empty _ _ (h.symm.trans hR)]
  · have hR2 : collect_records (extract_xml_from_files files2) sel ≠ [] :=
      fun he => hR (h.trans he)
    have h1f : files1 ≠ [] := by
      intro he
      subst he
      exact hR rfl
    have h2f : files2 ≠ [] := by
      intro he
      subst he
      exact hR2 rfl
    have h1e : extract_xml_from_files files1 ≠ [] := by
      intro he
      apply hR
      rw [he]
      rfl
    have h2e : extract_xml_from_files files2 ≠ [] := by
      intro he
      apply hR2
      rw [he]
      rfl
    have hf1 := List.isEmpty_eq_false.mpr h1f
    have hf2 := List.isEmpty_eq_false.mpr h2f
    have he1 := List.isEmpty_eq_false.mpr h1e
    have he2 := List.isEmpty_eq_false.mpr h2e
    have hc1 := List.isEmpty_eq_false.mpr hR
    have hc2 := List.isEmpty_eq_false.mpr hR2
    unfold process_nfe_files
    simp only [hf1, hf2, he1, he2, hc1, hc2, Bool.false_eq_true, if_false]
    rw [h]

/-- C4: confirmed.  A buffer whose bytes are malformed XML (under any
`.xml`-matched name) contributes zero records, and the batch with it yields
exactly the same table as the batch without it, wherever it sits in the input
list — the parse failure is contained and later documents are still
processed. -/
theorem C4_fault_isolation (l1 l2 : List UploadedFile) (bad : UploadedFile)
    (sel : Selection)
    (hzip : pyEndsWith bad.name ".zip" = false)
    (hxml : pyEndsWith (pyLower bad.name) ".xml" = true)
    (hread : bad.fread = some (Blob.notZip XmlContent.malformed)) :
    process_nfe_files (l1 ++ bad :: l2) sel = process_nfe_files (l1 ++ l2) sel := by
  apply process_eq_of_collect_eq
  have hone : extract_one bad = [XmlContent.malformed] := by
    unfold extract_one
    rw [hread]
    simp [hzip, hxml, blob_as_xml]
  have hsplit : extract_xml_from_files (l1 ++ bad :: l2) =
      extract_xml_from_files l1 ++
        (XmlContent.malformed :: extract_xml_from_files l2) := by
    rw [extract_append]
    show extract_xml_from_files l1 ++
        (extract_one bad ++ extract_xml_from_files l2) = _
    rw [hone]
    rfl
  rw [hsplit, extract_append l1 l2, collect_append, collect_append]
  rfl

/-- C4 witness: the theorem applied to a concrete two-file batch whose second
file is malformed. -/
theorem C4_witness :
    process_nfe_files [xmlFile "a.xml" docTwoDet, badXmlFile] selB =
      process_nfe_files [xmlFile "a.xml" docTwoDet] selB :=
  C4_fault_isolation [xmlFile "a.xml" docTwoDet] [] badXmlFile selB (by decide)
    (by decide) rfl

/-- When every buffer parses to zero records, nothing is gathered. -/
theorem collect_nil_of_all_nil {l : List XmlContent} {sel : Selection}
    (h : ∀ c ∈ l, parse_nfe_xml c sel = []) : collect_records l sel = [] := by
  induction l with
  | nil => rfl
  | cons c rest ih =>
    show parse_nfe_xml c sel ++ collect_records rest sel = []
    rw [h c (List.mem_cons_self c rest),
      ih (fun d hd => h d (List.mem_cons_of_mem c hd))]
    rfl

/-- C8: confirmed.  The batch driver is a total function into tables — in
the embedding every failure mode is a value, not an exception — and each
degradation mode of the claim holds: empty input yields the empty table, zero
extracted buffers yield the empty table, a batch whose every buffer parses to
zero records yields the empty table, and an unreadable blob is skipped
without disturbing the rest of the batch. -/
theorem C8_total_degradation :
    (∀ sel : Selection, process_nfe_files [] sel = DataFrame.empty) ∧
    (∀ (files : List UploadedFile) (sel : Selection),
        extract_xml_from_files files = [] →
        process_nfe_files files sel = DataFrame.empty) ∧
    (∀ (files : List UploadedFile) (sel : Selection),
        (∀ c ∈ extract_xml_from_files files, parse_nfe_xml c sel = []) →
        process_nfe_files files sel = DataFrame.empty) ∧
    (∀ (l1 l2 : List UploadedFile) (f : UploadedFile) (sel : Selection),
        f.fread = Option.none →
        process_nfe_files (l1 ++ f :: l2) sel = process_nfe_files (l1 ++ l2) sel) := by
  refine ⟨?_, ?_, ?_, ?_⟩
  · intro sel
    rfl
  · intro files sel h
    unfold process_nfe_files
    rw [h]
    simp
  · intro files sel h
    exact process_empty_of_collect_empty files sel (collect_nil_of_all_nil h)
  · intro l1 l2 f sel hf
    apply process_eq_of_collect_eq
    have hone : extract_one f = [] := by
      unfold extract_one
      rw [hf]
    have hsplit : extract_xml_from_files (l1 ++ f :: l2) =
        extract_xml_from_files l1 ++ extract_xml_from_files l2 := by
      rw [extract_append]
      show extract_xml_from_files l1 ++
          (extract_one f ++ extract_xml_from_files l2) = _
      rw [hone]
      rfl
    rw [hsplit, extract_append l1 l2]

/-- C8 witness: the degradation modes evaluated on concrete inputs — empty
input, an unreadable file, and a malformed `.xml` file. -/
theorem C8_witness :
    process_nfe_files [] selA = DataFrame.empty ∧
    process_nfe_files [unreadableFile] selA = process_nfe_files [] selA ∧
    process_nfe_files [badXmlFile] selA = DataFrame.empty := by
  refine ⟨C8_total_degradation.1 selA,
    C8_total_degradation.2.2.2 [] [] unreadableFile selA rfl,
    C8_total_degradation.2.2.1 [badXmlFile] selA ?_⟩
  intro c hc
  have he : extract_xml_from_files [badXmlFile] = [XmlContent.malformed] := rfl
  rw [he] at hc
  rw [List.mem_singleton.mp hc]
  rfl

/-- The numeric re-coercion of a cell always produces a float value. -/
theorem to_numeric_is_num (v : Value) : ∃ s, to_numeric_fillna0 v = Value.num s := by
  cases v with
  | num s => exact ⟨s, rfl⟩
  | str s =>
    by_cases hp : pyFloatParses s = true
    · exact ⟨s, by simp [to_numeric_fillna0, hp]⟩
    · exact ⟨"0.0", by simp [to_numeric_fillna0, hp]⟩
  | none => exact ⟨"0.0", rfl⟩
  | nan => exact ⟨"0.0", rfl⟩

/-- The numeric re-coercion of a cell is idempotent. -/
theorem to_numeric_fillna0_idem (v : Value) :
    to_numeric_fillna0 (to_numeric_fillna0 v) = to_numeric_fillna0 v := by
  obtain ⟨s, hs⟩ := to_numeric_is_num v
  rw [hs]
  rfl

/-- Mapping a pair function over a list zipped with its own image evaluates
pointwise. -/
theorem zip_map_map {α β γ : Type} (cols : List α) (g : α → β) (h : α → β → γ) :
    (List.zip cols (cols.map g)).map (fun kv => h kv.1 kv.2) =
      cols.map (fun c => h c (g c)) := by
  induction cols with
  | nil => rfl
  | cons k rest ih => simp [ih]

/-- Looking a key up in a list zipped with its own image yields the image of
the key, for any key of the list (first occurrence decides, and every
occurrence carries the same function value). -/
theorem lookup_zip_map {β : Type} (g : String → β) {cols : List String} {c : String}
    (hc : c ∈ cols) : (List.zip cols (cols.map g)).lookup c = some (g c) := by
  induction cols with
  | nil => cases hc
  | cons k rest ih =>
    rw [List.map_cons, List.zip_cons_cons, List.lookup_cons]
    cases hck : (c == k) with
    | true =>
      rw [eq_of_beq hck]
    | false =>
      show List.lookup c (rest.zip (List.map g rest)) = some (g c)
      apply ih
      rcases List.mem_cons.mp hc with h | h
      · exfalso
        rw [h] at hck
        simp at hck
      · exact h

/-- The cell of a row built by mapping a per-column function. -/
theorem row_cell_map {g : String → Value} {cols : List String} {c : String}
    (hc : c ∈ cols) : row_cell cols (cols.map g) c = g c := by
  unfold row_cell
  rw [lookup_zip_map g hc]
  rfl

/-- The backfill loop is the identity on a frame already containing every
listed column — which is how `process_nfe_files` always reaches it, because
`ordered_cols` is pre-filtered to present columns. -/
theorem backfill_noop {df : DataFrame} {l : List String}
    (h : ∀ c ∈ l, df.columns.contains c = true) :
    List.foldl backfill_step df l = df := by
  induction l with
  | nil => rfl
  | cons c rest ih =>
    rw [List.foldl_cons]
    have hstep : backfill_step df c = df := by
      unfold backfill_step
      rw [if_pos (h c (List.mem_cons_self c rest))]
    rw [hstep]
    exact ih (fun d hd => h d (List.mem_cons_of_mem c hd))

/-- A record gathered from any buffer of the batch is among the gathered
records. -/
theorem mem_collect {l : List XmlContent} {c : XmlContent} {sel : Selection}
    {r : Record} (hc : c ∈ l) (hr : r ∈ parse_nfe_xml c sel) :
    r ∈ collect_records l sel := by
  induction l with
  | nil => cases hc
  | cons c0 rest ih =>
    show r ∈ parse_nfe_xml c0 sel ++ collect_records rest sel
    rcases List.mem_cons.mp hc with h | h
    · rw [← h]
      exact List.mem_append_left _ hr
    · exact List.mem_append_right _ (ih h)

/-- When at least one record is gathered, the batch result is the aggregation
tail applied to the gathered records. -/
theorem process_eq_build (files : List UploadedFile) (sel : Selection)
    (h : collect_records (extract_xml_from_files files) sel ≠ []) :
    process_nfe_files files sel =
      build_dataframe (collect_records (extract_xml_from_files files) sel) sel := by
  have hf : files ≠ [] := by
    intro he
    subst he
    exact h rfl
  have he' : extract_xml_from_files files ≠ [] := by
    intro hee
    apply h
    rw [hee]
    rfl
  simp only [process_nfe_files, List.isEmpty_eq_false.mpr hf,
    List.isEmpty_eq_false.mpr he', List.isEmpty_eq_false.mpr h, Bool.false_eq_true,
    if_false]

/-- One record's key-collection step only grows the column list. -/
theorem add_column_fold_pres (rec : Record) :
    ∀ (cols : List String) (c : String), c ∈ cols →
      c ∈ List.foldl add_column_step cols rec := by
  induction rec with
  | nil => intro cols c hc; exact hc
  | cons kv rest ih =>
    intro cols c hc
    rw [List.foldl_cons]
    apply ih
    unfold add_column_step
    by_cases hin : cols.contains kv.1 = true
    · rw [if_pos hin]; exact hc
    · rw [if_neg hin]; exact List.mem_append_left _ hc

/-- One record's key-collection step picks up every key of that record. -/
theorem add_column_fold_adds (f : String) (v : Value) (rec : Record) :
    ∀ cols : List String, (f, v) ∈ rec →
      f ∈ List.foldl add_column_step cols rec := by
  induction rec with
  | nil => intro cols hc; cases hc
  | cons kv rest ih =>
    intro cols hc
    rw [List.foldl_cons]
    rcases List.mem_cons.mp hc with h | h
    · apply add_column_fold_pres
      unfold add_column_step
      have hf1 : kv.1 = f := by rw [← h]
      by_cases hin : cols.contains kv.1 = true
      · rw [if_pos hin]
        rw [hf1] at hin
        exact List.mem_of_elem_eq_true hin
      · rw [if_neg hin, hf1]
        exact List.mem_append_right _ (List.mem_singleton.mpr rfl)
    · exact ih _ h

/-- The whole column-collection fold only grows the column list. -/
theorem record_columns_fold_pres (recs : List Record) :
    ∀ (cols : List String) (c : String), c ∈ cols →
      c ∈ List.foldl (fun cols r => List.foldl add_column_step cols r) cols recs := by
  induction recs with
  | nil => intro cols c hc; exact hc
  | cons r0 rest ih =>
    intro cols c hc
    rw [List.foldl_cons]
    exact ih _ _ (add_column_fold_pres r0 cols c hc)

/-- A key present in some record is a column of the constructed frame. -/
theorem mem_record_columns {records : List Record} {r : Record} {f : String}
    {v : Value} (hr : r ∈ records) (hf : r.lookup f = some v) :
    f ∈ record_columns records := by
  have hmem : (f, v) ∈ r := lookup_mem hf
  have haux : ∀ (recs : List Record) (cols : List String), r ∈ recs →
      f ∈ List.foldl (fun cols r => List.foldl add_column_step cols r) cols recs := by
    intro recs
    induction recs with
    | nil => intro cols hc; cases hc
    | cons r0 rest ih =>
      intro cols hc
      rw [List.foldl_cons]
      rcases List.mem_cons.mp hc with h | h
      · exact record_columns_fold_pres rest _ f
          (add_column_fold_adds f v r0 cols (h ▸ hmem))
      · exact ih _ h
  exact haux records [] hr

/-- The numeric re-coercion fold, evaluated on a frame whose rows are built
by a per-record per-column function: each listed column present in the frame
is re-coerced pointwise (idempotently under repetition). -/
theorem coerce_fold_mapped {α : Type} (cols : List String) (fields : List String)
    (records : List α) :
    ∀ g : α → String → Value,
      List.foldl coerce_numeric_step
        ⟨cols, records.map (fun r => cols.map (g r))⟩ fields =
      ⟨cols, records.map (fun r => cols.map (fun c =>
        if fields.contains c && cols.contains c then to_numeric_fillna0 (g r c)
        else g r c))⟩ := by
  induction fields with
  | nil =>
    intro g
    simp
  | cons f fs ih =>
    intro g
    rw [List.foldl_cons]
    by_cases hf : cols.contains f = true
    · have hstep : coerce_numeric_step ⟨cols, records.map (fun r => cols.map (g r))⟩ f =
          ⟨cols, records.map (fun r => cols.map (fun c =>
            if c = f then to_numeric_fillna0 (g r c) else g r c))⟩ := by
        unfold coerce_numeric_step df_map_column
        dsimp only
        rw [if_pos hf]
        congr 1
        rw [List.map_map]
        apply List.map_congr_left
        intro r _
        exact zip_map_map cols (g r) (fun c v => if c = f then to_numeric_fillna0 v else v)
      rw [hstep, ih]
      congr 1
      apply List.map_congr_left
      intro r _
      apply List.map_congr_left
      intro c hcm
      by_cases hcf : c = f
      · subst hcf
        by_cases hfs : c ∈ fs
        · simp [hcm, hfs, to_numeric_fillna0_idem]
        · simp [hcm, hfs]
      · by_cases hfs : c ∈ fs
        · simp [hcm, hcf, hfs]
        · simp [hcm, hcf, hfs]
    · have hstep : coerce_numeric_step ⟨cols, records.map (fun r => cols.map (g r))⟩ f =
          ⟨cols, records.map (fun r => cols.map (g r))⟩ := by
        unfold coerce_numeric_step
        dsimp only
        rw [if_neg hf]
      rw [hstep, ih]
      congr 1
      apply List.map_congr_left
      intro r _
      apply List.map_congr_left
      intro c hcm
      by_cases hcf : c = f
      · exact absurd (List.elem_eq_true_of_mem (hcf ▸ hcm)) hf
      · by_cases hfs : c ∈ fs <;> simp [hcm, hcf, hfs]

/-- Normal form of the aggregation tail: the selected-and-present columns in
selection order, and one row per gathered record, each cell the record's
value under that column (NaN when the key is missing), re-coerced when the
column is one of the DECIMAL fields. -/
theorem build_dataframe_eq (records : List Record) (sel : Selection) :
    build_dataframe records sel =
      ⟨ordered_cols sel (record_columns records),
       records.map (fun r => (ordered_cols sel (record_columns records)).map
         (fun c => if numeric_fields.contains c = true then
             to_numeric_fillna0 ((r.lookup c).getD Value.nan)
           else (r.lookup c).getD Value.nan))⟩ := by
  have hsub : ∀ c ∈ ordered_cols sel (record_columns records),
      (record_columns records).contains c = true := by
    intro c hc
    exact (Bool.and_eq_true_iff.mp (List.mem_filter.mp hc).2).1
  show List.foldl coerce_numeric_step
      (df_select (List.foldl backfill_step (df_of_records records)
        (ordered_cols sel (record_columns records)))
        (ordered_cols sel (record_columns records))) numeric_fields = _
  rw [backfill_noop hsub]
  have hsel_df : df_select (df_of_records records)
      (ordered_cols sel (record_columns records)) =
      ⟨ordered_cols sel (record_columns records),
       records.map (fun r => (ordered_cols sel (record_columns records)).map
         (fun c => (r.lookup c).getD Value.nan))⟩ := by
    unfold df_select df_of_records
    dsimp only
    congr 1
    rw [List.map_map]
    apply List.map_congr_left
    intro r _
    apply List.map_congr_left
    intro c hc
    have hcc : c ∈ record_columns records :=
      List.mem_of_elem_eq_true (hsub c hc)
    unfold row_of_record
    exact row_cell_map hcc
  rw [hsel_df,
    coerce_fold_mapped (ordered_cols sel (record_columns records)) numeric_fields records
      (fun r c => (r.lookup c).getD Value.nan)]
  congr 1
  apply List.map_congr_left
  intro r _
  apply List.map_congr_left
  intro c hc
  by_cases hnf : c ∈ numeric_fields <;> simp [hc, hnf]

/-- In a duplicate-free field list, a selected field's cell after the item
loop holds exactly the value its extraction branch produced. -/
theorem foldl_item_step_lookup_mem {sel : Selection} {item : XElem}
    {l : List String} (hnd : l.Nodup) {f : String} (hf : f ∈ l)
    (hsel : lookupTrue sel f = true) (hni : f ≠ "Número do Item") {v : Value}
    (hv : item_field_value item f = some v) :
    ∀ row : Record, (List.foldl (item_step sel item) row l).lookup f = some v := by
  induction l with
  | nil => cases hf
  | cons g rest ih =>
    intro row
    rw [List.foldl_cons]
    have hnd' := List.nodup_cons.mp hnd
    rcases List.mem_cons.mp hf with h | h
    · have hgf : g = f := h.symm
      subst hgf
      have hstep : item_step sel item row g = dictSet row g v := by
        unfold item_step
        rw [hsel]
        simp only [Bool.not_true, Bool.false_eq_true, if_false]
        rw [if_neg hni, hv]
      rw [hstep]
      have hpost : ∀ d ∈ rest, d ≠ g := fun d hd hdg => hnd'.1 (hdg ▸ hd)
      rw [foldl_item_step_lookup_ne hpost]
      exact dictSet_lookup_self row g v
    · exact ih hnd'.2 h _

/-- In a duplicate-free selection, a selected header field whose loop step
stores a fixed value ends up holding that value in the document record. -/
theorem foldl_header_lookup_value (root : XElem) (ver : String) (f : String)
    (v : Value)
    (hstep : ∀ hd : Record, header_step root ver hd (f, true) = dictSet hd f v) :
    ∀ sel : Selection, (sel.map Prod.fst).Nodup → sel.lookup f = some true →
    ∀ hd : Record, (List.foldl (header_step root ver) hd sel).lookup f = some v := by
  intro sel
  induction sel with
  | nil => intro _ hsel _; simp [List.lookup] at hsel
  | cons kv rest ih =>
    intro hnd hsel hd
    obtain ⟨g, b⟩ := kv
    rw [List.map_cons, List.nodup_cons] at hnd
    rw [List.lookup_cons] at hsel
    cases hgf : (f == g) with
    | true =>
      rw [hgf] at hsel
      have hge : g = f := (eq_of_beq hgf).symm
      have hb : b = true := by simpa using hsel
      subst hge
      subst hb
      rw [List.foldl_cons, hstep hd]
      have hrest : ∀ p ∈ rest, (Prod.fst p) ≠ g := by
        intro p hp hpk
        have hmm : Prod.fst p ∈ List.map Prod.fst rest := List.mem_map_of_mem Prod.fst hp
        rw [hpk] at hmm
        exact hnd.1 hmm
      rw [foldl_header_lookup_ne hrest]
      exact dictSet_lookup_self hd _ _
    | false =>
      rw [hgf] at hsel
      exact List.foldl_cons _ _ ▸ ih hnd.2 hsel _

/-- An ICMS-group decimal extraction under a failing locator yields a value
the numeric pass resolves to `0.0` (immediately `0.0` when the locator
matches nothing, the temporary text when the text does not parse). -/
theorem icms_case (item : XElem) (tag : String)
    (h : decimal_lookup_fails item (".//nfe:imposto/nfe:ICMS//nfe:" ++ tag)) :
    ∃ v, some (orZero (extract_icms_field item tag)) = some v ∧
      to_numeric_fillna0 v = Value.num "0.0" := by
  rcases h with hn | ⟨node, t, hfind, htext, htne, htf⟩
  · refine ⟨Value.num "0.0", ?_, rfl⟩
    unfold extract_icms_field
    rw [hn]
    rfl
  · refine ⟨Value.str (pyStrip t), ?_, ?_⟩
    · unfold extract_icms_field
      rw [hfind]
      try dsimp only
      rw [htext]
      try dsimp only
      rw [if_neg htne]
      try dsimp only
      rw [if_neg (by simp [htf])]
      rfl
    · unfold to_numeric_fillna0
      simp [htf]

/-- An IPI/PIS/COFINS extraction under a failing locator yields `0.0`. -/
theorem tax_case (item : XElem) (grp tag : String)
    (h : decimal_lookup_fails item (".//nfe:imposto/nfe:" ++ grp ++ "//nfe:" ++ tag)) :
    extract_tax_value item grp tag = Value.num "0.0" := by
  rcases h with hn | ⟨node, t, hfind, htext, htne, htf⟩
  · unfold extract_tax_value
    rw [hn]
  · unfold extract_tax_value
    rw [hfind]
    try dsimp only
    rw [htext]
    try dsimp only
    rw [if_neg htne]
    try dsimp only
    rw [if_neg (by simp [htf])]

/-- A DIFAL extraction under a failing locator yields `None` (so the item
loop stores `0.0`). -/
theorem ufdest_case (item : XElem) (tag : String)
    (h : decimal_lookup_fails item (".//nfe:imposto/nfe:ICMSUFDest/nfe:" ++ tag)) :
    extract_icmsufdest_field item tag = Option.none := by
  rcases h with hn | ⟨node, t, hfind, htext, htne, htf⟩
  · unfold extract_icmsufdest_field
    rw [hn]
  · unfold extract_icmsufdest_field
    rw [hfind]
    try dsimp only
    rw [htext]
    try dsimp only
    rw [if_neg htne]
    try dsimp only
    rw [if_neg (by simp [htf])]

/-- A product-group decimal branch under a failing locator yields `0.0`. -/
theorem prod_case (item : XElem) (xpath : String)
    (h : decimal_lookup_fails item xpath) :
    (match safe_find_text item xpath Option.none with
     | some t =>
       if t = "" then some (Value.num "0.0")
       else if pyFloatParses t then some (Value.num t) else some (Value.num "0.0")
     | Option.none => some (Value.num "0.0")) = some (Value.num "0.0") := by
  rcases h with hn | ⟨node, t, hfind, htext, htne, htf⟩
  · have hs : safe_find_text item xpath Option.none = Option.none := by
      unfold safe_find_text
      rw [hn]
    rw [hs]
  · have hs : safe_find_text item xpath Option.none = some (pyStrip t) := by
      unfold safe_find_text
      rw [hfind]
      try dsimp only
      rw [htext]
      try dsimp only
      rw [if_neg htne]
    rw [hs]
    try dsimp only
    by_cases h0 : pyStrip t = ""
    · rw [if_pos h0]
    · rw [if_neg h0, if_neg (by simp [htf])]

/-- The value of a gathered record under a selected DECIMAL field that the
re-coercion sends to `0.0` is `0.0` in the corresponding row of the final
table. -/
theorem final_table_cell_zero (files : List UploadedFile) (sel : Selection)
    (r : Record) (f : String) (v : Value)
    (hr : r ∈ collect_records (extract_xml_from_files files) sel)
    (hlk : r.lookup f = some v)
    (hsel : lookupTrue sel f = true)
    (hnf : numeric_fields.contains f = true)
    (hv0 : to_numeric_fillna0 v = Value.num "0.0") :
    ∃ row ∈ (process_nfe_files files sel).rows,
      row_cell (process_nfe_files files sel).columns row f = Value.num "0.0" := by
  have hne : collect_records (extract_xml_from_files files) sel ≠ [] :=
    List.ne_nil_of_mem hr
  rw [process_eq_build files sel hne, build_dataframe_eq]
  refine ⟨(ordered_cols sel
        (record_columns (collect_records (extract_xml_from_files files) sel))).map
      (fun c => if numeric_fields.contains c = true then
          to_numeric_fillna0 ((r.lookup c).getD Value.nan)
        else (r.lookup c).getD Value.nan),
    List.mem_map_of_mem _ hr, ?_⟩
  have hford : f ∈ ordered_cols sel
      (record_columns (collect_records (extract_xml_from_files files) sel)) := by
    apply List.mem_filter.mpr
    constructor
    · exact List.mem_map_of_mem Prod.fst (lookup_mem (lookup_of_lookupTrue hsel))
    · have hcol : f ∈ record_columns (collect_records (extract_xml_from_files files) sel) :=
        mem_record_columns hr hlk
      simp [hsel]
      exact hcol
  rw [row_cell_map hford, if_pos hnf, hlk]
  exact hv0

/-- The DIFAL branch of the item loop stores `0.0` under a failing locator. -/
theorem ufdest_value_case (item : XElem) (tag : String)
    (h : decimal_lookup_fails item (".//nfe:imposto/nfe:ICMSUFDest/nfe:" ++ tag)) :
    (match extract_icmsufdest_field item tag with
     | some s => some (Value.num s)
     | Option.none => some (Value.num "0.0")) = some (Value.num "0.0") := by
  rw [ufdest_case item tag h]

/-- C5: confirmed, in full generality.  The 22 `numeric_fields` are exactly
the DECIMAL-kind fields, split into the item-level and header-level
catalogs; for every item-level DECIMAL field of every line item and every
header-level DECIMAL field of every document, under either failure mode of
`decimal_lookup_fails` (locator matches no node, or the matched text does
not parse as a number), the record holds a value the table-wide re-coercion
resolves to `0.0`, the final table of `process_nfe_files` holds `0.0` in the
corresponding row of any batch containing the document, and no cell of a
DECIMAL column of any final table is ever an absent or null marker. -/
theorem C5_decimal_default :
    (∀ f ∈ numeric_fields, f ∈ item_decimal_fields ∨ f ∈ header_decimal_fields) ∧
    (∀ (item : XElem) (f : String), f ∈ item_decimal_fields →
      decimal_lookup_fails item (item_decimal_path f) →
      ∃ v, item_field_value item f = some v ∧ to_numeric_fillna0 v = Value.num "0.0") ∧
    (∀ (root : XElem) (sel : Selection) (f : String), f ∈ header_decimal_fields →
      (sel.map Prod.fst).Nodup → sel.lookup f = some true →
      decimal_lookup_fails root (header_decimal_path f) →
      ∃ v, (build_header_data root sel).lookup f = some v ∧
        to_numeric_fillna0 v = Value.num "0.0") ∧
    (∀ (files : List UploadedFile) (sel : Selection) (root item : XElem) (f : String),
      XmlContent.wellFormed root ∈ extract_xml_from_files files → item ∈ root.dets →
      f ∈ item_decimal_fields → lookupTrue sel f = true →
      decimal_lookup_fails item (item_decimal_path f) →
      ∃ row ∈ (process_nfe_files files sel).rows,
        row_cell (process_nfe_files files sel).columns row f = Value.num "0.0") ∧
    (∀ (files : List UploadedFile) (sel : Selection) (root : XElem) (f : String),
      XmlContent.wellFormed root ∈ extract_xml_from_files files →
      f ∈ header_decimal_fields → (sel.map Prod.fst).Nodup →
      sel.lookup f = some true →
      decimal_lookup_fails root (header_decimal_path f) →
      ∃ row ∈ (process_nfe_files files sel).rows,
        row_cell (process_nfe_files files sel).columns row f = Value.num "0.0") ∧
    (∀ (records : List Record) (sel : Selection) (f : String), f ∈ numeric_fields →
      (build_dataframe records sel).columns.contains f = true →
      ∀ row ∈ (build_dataframe records sel).rows,
        ∃ s, row_cell (build_dataframe records sel).columns row f = Value.num s) := by
  have hpart1 : ∀ (item : XElem) (f : String), f ∈ item_decimal_fields →
      decimal_lookup_fails item (item_decimal_path f) →
      ∃ v, item_field_value item f = some v ∧
        to_numeric_fillna0 v = Value.num "0.0" := by
    intro item f hf h
    simp only [item_decimal_fields, item_decimal_paths, List.map_cons, List.map_nil,
      List.mem_cons, List.not_mem_nil, or_false] at hf
    rcases hf with rfl | rfl | rfl | rfl | rfl | rfl | rfl | rfl | rfl | rfl | rfl | rfl
      | rfl | rfl | rfl | rfl | rfl | rfl
    · exact ⟨Value.num "0.0", prod_case item ".//nfe:prod/nfe:qCom" h, rfl⟩
    · exact ⟨Value.num "0.0", prod_case item ".//nfe:prod/nfe:vUnCom" h, rfl⟩
    · exact ⟨Value.num "0.0", prod_case item ".//nfe:prod/nfe:vProd" h, rfl⟩
    · exact icms_case item "vBC" h
    · exact icms_case item "pICMS" h
    · exact icms_case item "vICMS" h
    · exact ⟨Value.num "0.0", congrArg some (tax_case item "IPI" "vIPI" h), rfl⟩
    · exact ⟨Value.num "0.0", congrArg some (tax_case item "PIS" "vPIS" h), rfl⟩
    · exact ⟨Value.num "0.0", congrArg some (tax_case item "COFINS" "vCOFINS" h), rfl⟩
    · exact ⟨Value.num "0.0", ufdest_value_case item "vBCUFDest" h, rfl⟩
    · exact ⟨Value.num "0.0", ufdest_value_case item "vBCFCPUFDest" h, rfl⟩
    · exact ⟨Value.num "0.0", ufdest_value_case item "pFCPUFDest" h, rfl⟩
    · exact ⟨Value.num "0.0", ufdest_value_case item "pICMSUFDest" h, rfl⟩
    · exact ⟨Value.num "0.0", ufdest_value_case item "pICMSInter" h, rfl⟩
    · exact ⟨Value.num "0.0", ufdest_value_case item "pICMSInterPart" h, rfl⟩
    · exact ⟨Value.num "0.0", ufdest_value_case item "vFCPUFDest" h, rfl⟩
    · exact ⟨Value.num "0.0", ufdest_value_case item "vICMSUFDest" h, rfl⟩
    · exact ⟨Value.num "0.0", ufdest_value_case item "vICMSUFRemet" h, rfl⟩
  have hpart2 : ∀ (root : XElem) (sel : Selection) (f : String),
      f ∈ header_decimal_fields →
      (sel.map Prod.fst).Nodup → sel.lookup f = some true →
      decimal_lookup_fails root (header_decimal_path f) →
      ∃ v, (build_header_data root sel).lookup f = some v ∧
        to_numeric_fillna0 v = Value.num "0.0" := by
    intro root sel f hf hnd hsel h
    have hstep : ∀ hd : Record,
        header_step root (detect_nfe_version root) hd (f, true) =
          dictSet hd f
            (optToValue (safe_find_text root (header_decimal_path f) Option.none)) := by
      simp only [header_decimal_fields, List.mem_cons, List.not_mem_nil, or_false] at hf
      rcases hf with rfl | rfl | rfl | rfl <;> (intro hd; rfl)
    have hlk := foldl_header_lookup_value root (detect_nfe_version root) f _ hstep sel
      hnd hsel []
    refine ⟨optToValue (safe_find_text root (header_decimal_path f) Option.none),
      hlk, ?_⟩
    rcases h with hn | ⟨node, t, hfind, htext, htne, htf⟩
    · have hs : safe_find_text root (header_decimal_path f) Option.none = Option.none := by
        unfold safe_find_text
        rw [hn]
      rw [hs]
      rfl
    · have hs : safe_find_text root (header_decimal_path f) Option.none =
          some (pyStrip t) := by
        unfold safe_find_text
        rw [hfind]
        try dsimp only
        rw [htext]
        try dsimp only
        rw [if_neg htne]
      rw [hs]
      show to_numeric_fillna0 (Value.str (pyStrip t)) = Value.num "0.0"
      unfold to_numeric_fillna0
      simp [htf]
  have hpart3 : ∀ (files : List UploadedFile) (sel : Selection) (root item : XElem)
      (f : String),
      XmlContent.wellFormed root ∈ extract_xml_from_files files → item ∈ root.dets →
      f ∈ item_decimal_fields → lookupTrue sel f = true →
      decimal_lookup_fails item (item_decimal_path f) →
      ∃ row ∈ (process_nfe_files files sel).rows,
        row_cell (process_nfe_files files sel).columns row f = Value.num "0.0" := by
    intro files sel root item f hx hitem hf hsel h
    obtain ⟨v, hv, hv0⟩ := hpart1 item f hf h
    have hfI : f ∈ ITEM_FIELDS := by
      have hall : ∀ g ∈ item_decimal_fields, g ∈ ITEM_FIELDS := by decide
      exact hall f hf
    have hfni : f ≠ "Número do Item" := by
      have hall : ∀ g ∈ item_decimal_fields, g ≠ "Número do Item" := by decide
      exact hall f hf
    have hnfc : numeric_fields.contains f = true := by
      have hall : ∀ g ∈ item_decimal_fields, numeric_fields.contains g = true := by decide
      exact hall f hf
    have hndI : ITEM_FIELDS.Nodup := by decide
    have hlkr : (item_row (build_header_data root sel) sel item).lookup f = some v :=
      foldl_item_step_lookup_mem hndI hfI hsel hfni hv _
    have hrparse : item_row (build_header_data root sel) sel item ∈
        parse_nfe_xml (XmlContent.wellFormed root) sel := by
      cases hdl : root.dets with
      | nil =>
        rw [hdl] at hitem
        cases hitem
      | cons d ds =>
        have heq : parse_nfe_xml (XmlContent.wellFormed root) sel =
            (d :: ds).map (item_row (build_header_data root sel) sel) := by
          simp [parse_nfe_xml, fromstring, hdl]
        rw [heq]
        exact List.mem_map_of_mem _ (hdl ▸ hitem)
    exact final_table_cell_zero files sel _ f v (mem_collect hx hrparse) hlkr hsel
      hnfc hv0
  have hpart4 : ∀ (files : List UploadedFile) (sel : Selection) (root : XElem)
      (f : String),
      XmlContent.wellFormed root ∈ extract_xml_from_files files →
      f ∈ header_decimal_fields → (sel.map Prod.fst).Nodup →
      sel.lookup f = some true →
      decimal_lookup_fails root (header_decimal_path f) →
      ∃ row ∈ (process_nfe_files files sel).rows,
        row_cell (process_nfe_files files sel).columns row f = Value.num "0.0" := by
    intro files sel root f hx hf hnd hsel h
    obtain ⟨v, hv, hv0⟩ := hpart2 root sel f hf hnd hsel h
    have hfI : ITEM_FIELDS.contains f = false := by
      have hall : ∀ g ∈ header_decimal_fields, ITEM_FIELDS.contains g = false := by
        decide
      exact hall f hf
    have hnfc : numeric_fields.contains f = true := by
      have hall : ∀ g ∈ header_decimal_fields, numeric_fields.contains g = true := by
        decide
      exact hall f hf
    have hselT : lookupTrue sel f = true := by
      unfold lookupTrue
      rw [hsel]
      rfl
    obtain ⟨r, hrparse, hlkr⟩ : ∃ r ∈ parse_nfe_xml (XmlContent.wellFormed root) sel,
        r.lookup f = some v := by
      cases hdl : root.dets with
      | nil =>
        refine ⟨build_header_data root sel, ?_, hv⟩
        have hne0 : (build_header_data root sel).isEmpty = false := by
          cases hh : build_header_data root sel with
          | nil => rw [hh] at hv; simp [List.lookup] at hv
          | cons a l => rfl
        simp [parse_nfe_xml, fromstring, hdl, hne0]
      | cons d ds =>
        refine ⟨item_row (build_header_data root sel) sel d, ?_, ?_⟩
        · have heq : parse_nfe_xml (XmlContent.wellFormed root) sel =
              (d :: ds).map (item_row (build_header_data root sel) sel) := by
            simp [parse_nfe_xml, fromstring, hdl]
          rw [heq]
          exact List.mem_map_of_mem _ (List.mem_cons_self d ds)
        · have hne : ∀ g ∈ ITEM_FIELDS, g ≠ f := by
            intro g hg hgf
            have hc : ITEM_FIELDS.contains f = true :=
              List.elem_eq_true_of_mem (hgf ▸ hg)
            rw [hc] at hfI
            exact Bool.noConfusion hfI
          unfold item_row
          rw [foldl_item_step_lookup_ne hne]
          by_cases hni : lookupTrue sel "Número do Item" = true
          · simp only [hni, if_true]
            rw [dictSet_lookup_ne _ _ (hne "Número do Item" (by decide)).symm]
            exact hv
          · simp only [hni, Bool.false_eq_true, if_false]
            exact hv
    exact final_table_cell_zero files sel r f v (mem_collect hx hrparse) hlkr hselT
      hnfc hv0
  have hpart5 : ∀ (records : List Record) (sel : Selection) (f : String),
      f ∈ numeric_fields →
      (build_dataframe records sel).columns.contains f = true →
      ∀ row ∈ (build_dataframe records sel).rows,
        ∃ s, row_cell (build_dataframe records sel).columns row f = Value.num s := by
    intro records sel f hf hcol row hrow
    rw [build_dataframe_eq] at hcol hrow ⊢
    try dsimp only at hcol hrow ⊢
    have hford : f ∈ ordered_cols sel (record_columns records) :=
      List.mem_of_elem_eq_true hcol
    obtain ⟨r, _, hreq⟩ := List.mem_map.mp hrow
    rw [← hreq, row_cell_map hford, if_pos (List.elem_eq_true_of_mem hf)]
    exact to_numeric_is_num _
  exact ⟨by decide, hpart1, hpart2, hpart3, hpart4, hpart5⟩

/-- C5 witness: the theorem applied to the concrete one-item document whose
`vICMS` locator matches nothing (item-level DECIMAL, absent mode) and whose
`vNF` text is non-numeric (header-level DECIMAL, unparsable mode resolved by
the table-wide re-coercion pass). -/
theorem C5_witness :
    (∃ v, item_field_value itemC5 "Valor ICMS" = some v ∧
      to_numeric_fillna0 v = Value.num "0.0") ∧
    (∃ row ∈ (process_nfe_files [xmlFile "a.xml" docC5] selC5).rows,
      row_cell (process_nfe_files [xmlFile "a.xml" docC5] selC5).columns row
        "Valor ICMS" = Value.num "0.0") ∧
    (∃ row ∈ (process_nfe_files [xmlFile "a.xml" docC5] selC5).rows,
      row_cell (process_nfe_files [xmlFile "a.xml" docC5] selC5).columns row
        "Valor Total da NF" = Value.num "0.0") := by
  refine ⟨?_, ?_, ?_⟩
  · exact C5_decimal_default.2.1 itemC5 "Valor ICMS" (by decide) (Or.inl rfl)
  · exact C5_decimal_default.2.2.2.1 [xmlFile "a.xml" docC5] selC5 docC5 itemC5
      "Valor ICMS" (List.mem_singleton.mpr rfl) (List.mem_singleton.mpr rfl)
      (by decide) (by decide) (Or.inl rfl)
  · exact C5_decimal_default.2.2.2.2.1 [xmlFile "a.xml" docC5] selC5 docC5
      "Valor Total da NF" (List.mem_singleton.mpr rfl) (by decide) (by decide)
      (by decide) (Or.inr ⟨leaf "abc", "abc", rfl, rfl, by decide, by decide⟩)

end Nfe
